import Mathlib

/-!
Verification of the client-side stream-multiplexing transport and replication
coordinator of `skdb` (source: `src/packages/skdb/src/skdb-node.js`).

The development shallowly embeds the relevant source functions:

* the binary frame codec (`MuxedSocket.decode`, `encodeGoawayMsg`,
  `encodeStreamDataMsg`, `encodeStreamCloseMsg`, `encodeStreamResetMsg`);
* the binary auth-frame builder (`MuxedSocket.encodeAuthMsg`);
* the `MuxedSocket`/`Stream` state machines, as a step function over an
  explicit state (`Mux`) carrying the socket state, every `Stream` object ever
  constructed (by stream id), the `activeStreams` table, the watermark and the
  next client stream id; observable behaviour (frames sent on the transport,
  user callbacks, transport closes, thrown errors) is returned as a list of
  `Effect`s;
* the replication-coordinator connection bookkeeping of `SKDB`
  (`connectReadTable`, `connectWriteTable`) and `SKDBServer.mirrorTable`.

Machine integers: the JavaScript values involved are non-negative and
`DataView.setUint32` truncates modulo `2 ^ 32`, which is modelled with explicit
`% 2 ^ 32`.  The only place a JavaScript number can go negative is
`this.nextStream - 2` in `errorSocket`; that subtraction is modelled on `Int`.

Text encoding (`TextEncoder` / `TextDecoder`) is an assumed platform
primitive; it is modelled here by standard UTF-8 encoding/decoding over `Nat`
code points (Lean `Char`s are exactly the Unicode scalar values, matching the
code points `TextEncoder` emits; `TextEncoder.encodeInto` writes the longest
prefix of whole code points that fits the target capacity, modelled by
`encodeIntoWritten`).  Decoding failures are modelled as `none`.
-/

/- ********************************************************************** -/
/- UTF-8 model (assumed platform primitive: TextEncoder / TextDecoder)    -/
/- ********************************************************************** -/

/-- Standard UTF-8 encoding of a single Unicode code point. -/
def utf8EncodeChar (n : Nat) : List Nat :=
  if n < 0x80 then [n]
  else if n < 0x800 then [0xC0 + n / 64, 0x80 + n % 64]
  else if n < 0x10000 then
    [0xE0 + n / 4096, 0x80 + (n / 64) % 64, 0x80 + n % 64]
  else
    [0xF0 + n / 262144, 0x80 + (n / 4096) % 64, 0x80 + (n / 64) % 64,
     0x80 + n % 64]

/-- UTF-8 encoding of a string (by Unicode scalar values). -/
def utf8Encode (s : String) : List Nat :=
  (s.data.map (fun c => utf8EncodeChar c.toNat)).flatten

/-- Number of UTF-8 bytes a string encodes to. -/
def utf8Len (s : String) : Nat := (utf8Encode s).length

/-- Decode one UTF-8-encoded code point from the front of the byte list;
`none` on malformed input. -/
def utf8DecodeOne (l : List Nat) : Option (Nat × List Nat) :=
  match l with
  | [] => none
  | b :: rest =>
    if b < 0x80 then some (b, rest)
    else if b < 0xC0 then none
    else if b < 0xE0 then
      match rest with
      | b1 :: rest1 =>
        if b1 / 64 = 2 then some ((b - 0xC0) * 64 + (b1 - 0x80), rest1)
        else none
      | [] => none
    else if b < 0xF0 then
      match rest with
      | b1 :: b2 :: rest1 =>
        if b1 / 64 = 2 ∧ b2 / 64 = 2 then
          some ((b - 0xE0) * 4096 + (b1 - 0x80) * 64 + (b2 - 0x80), rest1)
        else none
      | _ => none
    else if b < 0xF8 then
      match rest with
      | b1 :: b2 :: b3 :: rest1 =>
        if b1 / 64 = 2 ∧ b2 / 64 = 2 ∧ b3 / 64 = 2 then
          some ((b - 0xF0) * 262144 + (b1 - 0x80) * 4096 + (b2 - 0x80) * 64 +
            (b3 - 0x80), rest1)
        else none
      | _ => none
    else none

/-- Standard UTF-8 decoding into a list of code points; `none` on malformed
input (the callers only rely on its behaviour on well-formed input). -/
def utf8DecodeNats (l : List Nat) : Option (List Nat) :=
  match l with
  | [] => some []
  | b :: rest =>
    match h : utf8DecodeOne (b :: rest) with
    | none => none
    | some p => (utf8DecodeNats p.2).map (p.1 :: ·)
termination_by l.length
decreasing_by
  simp only [utf8DecodeOne] at h
  split_ifs at h with h1 h2 h3 h4 h5
  · simp only [Option.some.injEq] at h
    simp [← h]
  · split at h
    next b1 rest1 =>
      split_ifs at h
      simp only [Option.some.injEq] at h
      simp [← h]
      omega
    next => exact absurd h (by simp)
  · split at h
    next b1 b2 rest1 =>
      split_ifs at h
      simp only [Option.some.injEq] at h
      simp [← h]
      omega
    next => exact absurd h (by simp)
  · split at h
    next b1 b2 b3 rest1 =>
      split_ifs at h
      simp only [Option.some.injEq] at h
      simp [← h]
      omega
    next => exact absurd h (by simp)

/-- UTF-8 decoding into a string. -/
def utf8DecodeString (b : List Nat) : Option String :=
  (utf8DecodeNats b).map (fun l => ⟨l.map Char.ofNat⟩)

/-- Helper for `encodeIntoWritten`: greedy count of UTF-8 bytes of whole code
points that fit into the remaining capacity. -/
def encodeIntoWrittenGo (cap : Nat) : List Char → Nat → Nat
  | [], acc => acc
  | c :: cs, acc =>
    if acc + (utf8EncodeChar c.toNat).length ≤ cap then
      encodeIntoWrittenGo cap cs (acc + (utf8EncodeChar c.toNat).length)
    else acc

/-- The `written` field of `TextEncoder.encodeInto(s, target)` for a target of
`cap` bytes: the number of bytes of the longest prefix of whole code points of
`s` whose UTF-8 encoding fits in `cap` bytes. -/
def encodeIntoWritten (s : String) (cap : Nat) : Nat :=
  encodeIntoWrittenGo cap s.data 0

/- ********************************************************************** -/
/- Frame codec (MuxedSocket.decode / encode*Msg)                          -/
/- ********************************************************************** -/

/-- Big-endian 32-bit serialization (`DataView.setUint32(_, n, false)`),
truncating like JavaScript does. -/
def u32be (n : Nat) : List Nat :=
  [n / 2 ^ 24 % 256, n / 2 ^ 16 % 256, n / 2 ^ 8 % 256, n % 256]

/-- The decoded frames of the mux protocol (shapes returned by
`MuxedSocket.decode`). -/
inductive Frame where
  | auth : Frame
  | goaway (lastStream : Nat) (errorCode : Nat) (msg : String) : Frame
  | data (stream : Nat) (payload : List Nat) : Frame
  | close (stream : Nat) : Frame
  | reset (stream : Nat) (errorCode : Nat) (msg : String) : Frame
deriving DecidableEq, Repr

namespace MuxedSocket

/-- Source `MuxedSocket.encodeGoawayMsg`: byte 0 is the type tag 1,
bytes 4..8 the lastStream, 8..12 the errorCode, 12..16 the byte length of the
UTF-8 message, then the message bytes.  A `lastStream ≥ 2 ^ 24` throws
(`Except.error`). -/
def encodeGoawayMsg (lastStream errorCode : Nat) (msg : String) :
    Except String (List Nat) :=
  if lastStream ≥ 2 ^ 24 then .error "Cannot encode lastStream"
  else
    let msgBytes := utf8Encode msg
    .ok (u32be (0x1 * 2 ^ 24) ++ u32be lastStream ++ u32be (errorCode % 2 ^ 32)
         ++ u32be msgBytes.length ++ msgBytes)

/-- Source `MuxedSocket.encodeStreamDataMsg`: first word packs type tag 2 and
the stream id, then the raw payload bytes. -/
def encodeStreamDataMsg (stream : Nat) (data : List Nat) :
    Except String (List Nat) :=
  if stream ≥ 2 ^ 24 then .error "Cannot encode stream"
  else .ok (u32be (0x2 * 2 ^ 24 + stream) ++ data)

/-- Source `MuxedSocket.encodeStreamCloseMsg`: a single word packing type tag 3
and the stream id. -/
def encodeStreamCloseMsg (stream : Nat) : Except String (List Nat) :=
  if stream ≥ 2 ^ 24 then .error "Cannot encode stream"
  else .ok (u32be (0x3 * 2 ^ 24 + stream))

/-- Source `MuxedSocket.encodeStreamResetMsg`: first word packs type tag 4 and
the stream id, then the errorCode, the message byte length, and the UTF-8
message bytes. -/
def encodeStreamResetMsg (stream errorCode : Nat) (msg : String) :
    Except String (List Nat) :=
  if stream ≥ 2 ^ 24 then .error "Cannot encode stream"
  else
    let msgBytes := utf8Encode msg
    .ok (u32be (0x4 * 2 ^ 24 + stream) ++ u32be (errorCode % 2 ^ 32)
         ++ u32be msgBytes.length ++ msgBytes)

/-- Source `MuxedSocket.decode`: split the first big-endian word into the type
tag (high 8 bits) and stream id (low 24 bits) and parse the body accordingly.
Unknown type tags decode to `none`; a buffer too short for the claimed layout
(a `RangeError` in JavaScript) is also modelled as `none`. -/
def decode (b : List Nat) : Option Frame :=
  match b with
  | b0 :: b1 :: b2 :: b3 :: rest =>
    let stream := b1 * 2 ^ 16 + b2 * 2 ^ 8 + b3
    match b0 with
    | 0 => some .auth
    | 1 =>
      match rest with
      | a0 :: a1 :: a2 :: a3 :: c0 :: c1 :: c2 :: c3 :: d0 :: d1 :: d2 :: d3 ::
        tail =>
        let msgLength := d0 * 2 ^ 24 + d1 * 2 ^ 16 + d2 * 2 ^ 8 + d3
        if msgLength ≤ tail.length then
          (utf8DecodeString (tail.take msgLength)).map
            (fun s => .goaway (a0 * 2 ^ 24 + a1 * 2 ^ 16 + a2 * 2 ^ 8 + a3)
              (c0 * 2 ^ 24 + c1 * 2 ^ 16 + c2 * 2 ^ 8 + c3) s)
        else none
      | _ => none
    | 2 => some (.data stream rest)
    | 3 => some (.close stream)
    | 4 =>
      match rest with
      | c0 :: c1 :: c2 :: c3 :: d0 :: d1 :: d2 :: d3 :: tail =>
        let msgLength := d0 * 2 ^ 24 + d1 * 2 ^ 16 + d2 * 2 ^ 8 + d3
        if msgLength ≤ tail.length then
          (utf8DecodeString (tail.take msgLength)).map
            (fun s => .reset stream
              (c0 * 2 ^ 24 + c1 * 2 ^ 16 + c2 * 2 ^ 8 + c3) s)
        else none
      | _ => none
    | _ => none
  | _ => none

/-- Source `MuxedSocket.encodeAuthMsg`, with the random nonce and the HMAC
signature passed in as byte lists (cryptography is an assumed primitive) and
the current ISO-8601 date as a string.  The 96-byte buffer layout: type 0 at
offset 0, version 0 at offset 4, access key at 8, nonce at 28, signature at
36, flag at 68, date at 69.  `encodeInto` on `subarray(8)` has capacity 88 and
on `subarray(69)` capacity 27.  The access-key check requires exactly 20
written bytes; the date check requires 24 (buffer truncated to 93 bytes) or
27 written bytes (flag byte 68 set to 1). -/
def encodeAuthMsg (accessKey now : String) (nonce sig : List Nat) :
    Except String (List Nat) :=
  let write := fun (buf : List Nat) (off : Nat) (bytes : List Nat) =>
    buf.take off ++ bytes ++ buf.drop (off + bytes.length)
  let buf := List.replicate 96 0
  let buf := write buf 28 nonce
  let keyWritten := encodeIntoWritten accessKey 88
  if keyWritten ≠ 20 then .error "Unable to encode access key"
  else
    let buf := write buf 8 ((utf8Encode accessKey).take keyWritten)
    let buf := write buf 36 sig
    let dateWritten := encodeIntoWritten now 27
    let buf := write buf 69 ((utf8Encode now).take dateWritten)
    if dateWritten = 24 then .ok (buf.take 93)
    else if dateWritten = 27 then .ok (write buf 68 [1])
    else .error "Unexpected ISO date length"

end MuxedSocket

/- ********************************************************************** -/
/- MuxedSocket / Stream state machines                                    -/
/- ********************************************************************** -/

/-- Source enum `MuxedSocketState`. -/
inductive MuxedSocketState where
  | IDLE | AUTH_SENT | CLOSING | CLOSEWAIT | CLOSED
deriving DecidableEq, Repr

/-- Source enum `StreamState`. -/
inductive StreamState where
  | OPEN | CLOSING | CLOSEWAIT | CLOSED
deriving DecidableEq, Repr

/-- Association-list lookup on stream ids (first match; reachable states never
hold two entries with the same id). -/
def streamsLookup : List (Nat × StreamState) → Nat → Option StreamState
  | [], _ => none
  | (k, v) :: rest, id => if k = id then some v else streamsLookup rest id

/-- Overwrite the state of stream `id` (mutation of the `Stream` object's
`state` field in the source). -/
def streamsSet : List (Nat × StreamState) → Nat → StreamState →
    List (Nat × StreamState)
  | [], _, _ => []
  | (k, v) :: rest, id, st =>
    (if k = id then (id, st) else (k, v)) :: streamsSet rest id st

/-- Combined state of one `MuxedSocket` together with every `Stream` object it
ever constructed (tracked by stream id in `streams`; a `Stream` removed from
the `activeStreams` table still exists and the user can still call its
methods, so it stays in `streams`). -/
structure Mux where
  state : MuxedSocketState
  streams : List (Nat × StreamState)
  activeStreams : List Nat
  serverStreamWatermark : Nat
  nextStream : Nat
deriving DecidableEq, Repr

/-- Constructor state of `MuxedSocket` (socket just opened). -/
def Mux.init : Mux :=
  { state := .IDLE, streams := [], activeStreams := [],
    serverStreamWatermark := 0, nextStream := 1 }

def Mux.lookupStream (m : Mux) (id : Nat) : Option StreamState :=
  streamsLookup m.streams id

def Mux.setStream (m : Mux) (id : Nat) (st : StreamState) : Mux :=
  { m with streams := streamsSet m.streams id st }

/-- Observable effects of one state-machine step: frames handed to
`socket.send` (at frame granularity; encoding is the separately verified
codec), `socket.close` calls with their optional close code, user callbacks,
the bytes of the auth frame (`sentAuth`), and thrown errors that escape the
handler (`fatal`). -/
inductive Effect where
  | sendFrame (f : Frame)
  | sentAuth
  | transportClose (code : Option Nat)
  | cbOnClose
  | cbOnError (errorCode : Nat) (msg : String)
  | cbOnStream (id : Nat)
  | cbStreamData (id : Nat) (payload : List Nat)
  | cbStreamClose (id : Nat)
  | cbStreamError (id : Nat) (errorCode : Nat) (msg : String)
  | fatal (msg : String)
deriving DecidableEq, Repr

namespace MuxedSocket

/-- Source `MuxedSocket.streamClose` (interface used by `Stream`). -/
def streamClose (m : Mux) (id : Nat) (nowClosed : Bool) : Mux × List Effect :=
  match m.state with
  | .IDLE | .CLOSING | .CLOSED => (m, [])
  | .AUTH_SENT | .CLOSEWAIT =>
    (if nowClosed then { m with activeStreams := m.activeStreams.erase id }
     else m,
     [.sendFrame (.close id)])

/-- Source `MuxedSocket.streamError` (interface used by `Stream`). -/
def streamError (m : Mux) (id errorCode : Nat) (msg : String) :
    Mux × List Effect :=
  match m.state with
  | .IDLE | .CLOSING | .CLOSED => (m, [])
  | .AUTH_SENT | .CLOSEWAIT =>
    ({ m with activeStreams := m.activeStreams.erase id },
     [.sendFrame (.reset id errorCode msg)])

/-- Source `MuxedSocket.streamSend` (interface used by `Stream`). -/
def streamSend (m : Mux) (id : Nat) (data : List Nat) : Mux × List Effect :=
  match m.state with
  | .IDLE | .CLOSING | .CLOSED => (m, [])
  | .AUTH_SENT | .CLOSEWAIT => (m, [.sendFrame (.data id data)])

/-- Source `MuxedSocket.openStream`; the thrown `Error` messages are the
`Except.error` values. -/
def openStream (m : Mux) : Except String (Nat × Mux) :=
  match m.state with
  | .AUTH_SENT =>
    let streamId := m.nextStream
    .ok (streamId,
      { m with nextStream := streamId + 2,
               streams := (streamId, .OPEN) :: m.streams,
               activeStreams := m.activeStreams ++ [streamId] })
  | .CLOSING | .CLOSEWAIT => .error "Connection closing"
  | .IDLE | .CLOSED => .error "Connection not established"

end MuxedSocket

namespace Stream

/-- Source `Stream.close`.  A lookup miss (no such `Stream` object) is a
no-op; real calls always target a constructed stream. -/
def close (m : Mux) (id : Nat) : Mux × List Effect :=
  match m.lookupStream id with
  | none => (m, [])
  | some st =>
    match st with
    | .CLOSING | .CLOSED => (m, [])
    | .OPEN => MuxedSocket.streamClose (m.setStream id .CLOSING) id false
    | .CLOSEWAIT => MuxedSocket.streamClose (m.setStream id .CLOSED) id true

/-- Source `Stream.error`. -/
def error (m : Mux) (id errorCode : Nat) (msg : String) : Mux × List Effect :=
  match m.lookupStream id with
  | none => (m, [])
  | some st =>
    match st with
    | .CLOSED | .CLOSING => (m.setStream id .CLOSED, [])
    | .OPEN | .CLOSEWAIT =>
      MuxedSocket.streamError (m.setStream id .CLOSED) id errorCode msg

/-- Source `Stream.send`.  The `Except` result exposes synchronous exceptions:
`send` has no throw path in the source, so every branch is `.ok`. -/
def send (m : Mux) (id : Nat) (data : List Nat) :
    Except String (Mux × List Effect) :=
  match m.lookupStream id with
  | none => .ok (m, [])
  | some st =>
    match st with
    | .CLOSING | .CLOSED => .ok (m, [])
    | .OPEN | .CLOSEWAIT => .ok (MuxedSocket.streamSend m id data)

/-- Source `Stream.onStreamClose`; the `Bool` is the "now removable" result. -/
def onStreamClose (m : Mux) (id : Nat) : Mux × List Effect × Bool :=
  match m.lookupStream id with
  | none => (m, [], false)
  | some st =>
    match st with
    | .CLOSED => (m, [], true)
    | .CLOSEWAIT => (m, [], false)
    | .OPEN => (m.setStream id .CLOSEWAIT, [.cbStreamClose id], false)
    | .CLOSING => (m.setStream id .CLOSED, [.cbStreamClose id], true)

/-- Source `Stream.onStreamError`. -/
def onStreamError (m : Mux) (id errorCode : Nat) (msg : String) :
    Mux × List Effect :=
  match m.lookupStream id with
  | none => (m, [])
  | some st =>
    match st with
    | .CLOSED => (m, [])
    | .CLOSING | .OPEN | .CLOSEWAIT =>
      (m.setStream id .CLOSED, [.cbStreamError id errorCode msg])

/-- Source `Stream.onStreamData`. -/
def onStreamData (m : Mux) (id : Nat) (data : List Nat) : Mux × List Effect :=
  match m.lookupStream id with
  | none => (m, [])
  | some st =>
    match st with
    | .CLOSED | .CLOSEWAIT => (m, [])
    | .CLOSING | .OPEN => (m, [.cbStreamData id data])

end Stream

/-- Iterate a stream operation over a snapshot of the `activeStreams` ids
(the `for (const stream of this.activeStreams.values())` loops; the loop
bodies only ever delete the entry currently visited, so iterating the
snapshot matches JavaScript `Map` iteration). -/
def foldStreams (f : Mux → Nat → Mux × List Effect) (m : Mux) :
    List Nat → Mux × List Effect
  | [] => (m, [])
  | id :: rest =>
    let r1 := f m id
    let r2 := foldStreams f r1.1 rest
    (r2.1, r1.2 ++ r2.2)

namespace MuxedSocket

/-- Source `MuxedSocket.closeSocket`. -/
def closeSocket (m : Mux) : Mux × List Effect :=
  match m.state with
  | .CLOSING | .CLOSED => (m, [])
  | .IDLE =>
    ({ m with activeStreams := [], state := .CLOSED },
     [.transportClose none])
  | .CLOSEWAIT =>
    let r := foldStreams Stream.close m m.activeStreams
    ({ r.1 with activeStreams := [], state := .CLOSED },
     r.2 ++ [.transportClose none])
  | .AUTH_SENT =>
    let r := foldStreams Stream.close m m.activeStreams
    ({ r.1 with state := .CLOSING }, r.2 ++ [.transportClose none])

/-- Source `MuxedSocket.errorSocket`.  `Math.max(this.nextStream - 2,
this.serverStreamWatermark)` is computed on `Int` because
`this.nextStream - 2` is `-1` when no stream was ever opened. -/
def errorSocket (m : Mux) (errorCode : Nat) (msg : String) :
    Mux × List Effect :=
  match m.state with
  | .IDLE | .CLOSING | .CLOSED =>
    ({ m with activeStreams := [], state := .CLOSED }, [])
  | .AUTH_SENT | .CLOSEWAIT =>
    let r := foldStreams (fun m id => Stream.error m id errorCode msg) m
      m.activeStreams
    let lastStream : Nat :=
      (max ((r.1.nextStream : Int) - 2) (r.1.serverStreamWatermark : Int)).toNat
    ({ r.1 with activeStreams := [], state := .CLOSED },
     r.2 ++ [.sendFrame (.goaway lastStream errorCode msg),
             .transportClose (some 1002)])

/-- Source `MuxedSocket.onSocketClose` (transport-level close event). -/
def onSocketClose (m : Mux) : Mux × List Effect :=
  match m.state with
  | .CLOSEWAIT | .CLOSED => (m, [])
  | .IDLE | .AUTH_SENT =>
    let r := foldStreams
      (fun m id => let r := Stream.onStreamClose m id; (r.1, r.2.1)) m
      m.activeStreams
    ({ r.1 with state := .CLOSEWAIT }, r.2 ++ [.cbOnClose])
  | .CLOSING =>
    let r := foldStreams
      (fun m id => let r := Stream.onStreamClose m id; (r.1, r.2.1)) m
      m.activeStreams
    ({ r.1 with activeStreams := [], state := .CLOSED }, r.2 ++ [.cbOnClose])

/-- Source `MuxedSocket.onSocketError` (transport-level error event). -/
def onSocketError (m : Mux) (errorCode : Nat) (msg : String) :
    Mux × List Effect :=
  match m.state with
  | .CLOSED => (m, [])
  | .IDLE | .AUTH_SENT | .CLOSING | .CLOSEWAIT =>
    let r := foldStreams (fun m id => Stream.onStreamError m id 0 msg) m
      m.activeStreams
    ({ r.1 with activeStreams := [], state := .CLOSED },
     r.2 ++ [.cbOnError errorCode msg])

/-- Source `MuxedSocket.onSocketMessage`, after `decode`, on a recognized
frame (`decode` returning `null` is ignored by the handler, and the states
IDLE/CLOSEWAIT/CLOSED ignore every message).  An `auth` frame from the server
throws. -/
def onSocketMessage (m : Mux) (msg : Frame) : Mux × List Effect :=
  match m.state with
  | .IDLE | .CLOSEWAIT | .CLOSED => (m, [])
  | .AUTH_SENT | .CLOSING =>
    match msg with
    | .auth => (m, [.fatal "Unexepected auth message from server"])
    | .goaway _ errorCode gmsg => onSocketError m errorCode gmsg
    | .data id payload =>
      if id ∈ m.activeStreams then Stream.onStreamData m id payload
      else if m.state = .CLOSING then (m, [])
      else if id % 2 = 0 ∧ id > m.serverStreamWatermark then
        let m1 := { m with serverStreamWatermark := id,
                           streams := (id, StreamState.OPEN) :: m.streams,
                           activeStreams := m.activeStreams ++ [id] }
        let r := Stream.onStreamData m1 id payload
        (r.1, .cbOnStream id :: r.2)
      else (m, [])
    | .close id =>
      if id ∈ m.activeStreams then
        let r := Stream.onStreamClose m id
        (if r.2.2 then { r.1 with activeStreams := r.1.activeStreams.erase id }
         else r.1, r.2.1)
      else (m, [])
    | .reset id errorCode rmsg =>
      let r := if id ∈ m.activeStreams then Stream.onStreamError m id errorCode rmsg
               else (m, [])
      ({ r.1 with activeStreams := r.1.activeStreams.erase id }, r.2)

/-- Source `MuxedSocket.sendAuth` (`connect` sends the auth frame as soon as
the transport opens); `sentAuth` stands for sending the encoded auth bytes. -/
def sendAuth (m : Mux) : Mux × List Effect :=
  match m.state with
  | .IDLE => ({ m with state := .AUTH_SENT }, [.sentAuth])
  | .AUTH_SENT | .CLOSING =>
    (m, [.fatal "Tried to auth an established connection"])
  | .CLOSEWAIT | .CLOSED => (m, [])

end MuxedSocket

/-- The externally triggerable transitions of one `MuxedSocket` with its
streams: user API calls, decoded incoming frames, and transport events. -/
inductive Event where
  | sendAuth
  | openStream
  | closeStream (id : Nat)
  | errorStream (id : Nat) (errorCode : Nat) (msg : String)
  | sendStream (id : Nat) (data : List Nat)
  | closeSocket
  | errorSocket (errorCode : Nat) (msg : String)
  | message (f : Frame)
  | socketClosed
  | socketError (errorCode : Nat) (msg : String)
deriving DecidableEq, Repr

/-- One dispatch step.  Exceptions thrown by `openStream`/`send` surface to
the caller and leave the state unchanged. -/
def MuxedSocket.step (m : Mux) : Event → Mux × List Effect
  | .sendAuth => MuxedSocket.sendAuth m
  | .openStream =>
    match MuxedSocket.openStream m with
    | .ok r => (r.2, [])
    | .error _ => (m, [])
  | .closeStream id => Stream.close m id
  | .errorStream id errorCode msg => Stream.error m id errorCode msg
  | .sendStream id data =>
    match Stream.send m id data with
    | .ok r => r
    | .error _ => (m, [])
  | .closeSocket => MuxedSocket.closeSocket m
  | .errorSocket errorCode msg => MuxedSocket.errorSocket m errorCode msg
  | .message f => MuxedSocket.onSocketMessage m f
  | .socketClosed => MuxedSocket.onSocketClose m
  | .socketError errorCode msg => MuxedSocket.onSocketError m errorCode msg

/-- Run a sequence of events from a state. -/
def runEvents (m : Mux) : List Event → Mux
  | [] => m
  | e :: rest => runEvents (MuxedSocket.step m e).1 rest

/-- The reachable combined states of a `MuxedSocket` (from the constructor
state, under any sequence of API calls, incoming frames and transport
events). -/
inductive Reachable : Mux → Prop where
  | init : Reachable Mux.init
  | step (m : Mux) (e : Event) : Reachable m → Reachable (MuxedSocket.step m e).1

/- ********************************************************************** -/
/- SKDB replication coordinator (connection bookkeeping)                  -/
/- ********************************************************************** -/

/-- Generic association-list lookup (JavaScript map-object property read). -/
def alookup {α : Type} : List (String × α) → String → Option α
  | [], _ => none
  | (k, v) :: rest, key => if k = key then some v else alookup rest key

/-- Generic association-list write (JavaScript map-object property set:
overwrite if present, otherwise add). -/
def aset {α : Type} : List (String × α) → String → α → List (String × α)
  | [], key, v => [(key, v)]
  | (k, w) :: rest, key, v =>
    if k = key then (key, v) :: rest else (k, w) :: aset rest key v

/-- Which of the two `SKDB` methods created a `ResilientConnection`:
`connectReadTable` (the server-tail, carrying `tail` data) or
`connectWriteTable` (the local-tail, carrying `write`/`pipe` data). -/
inductive ConnKind where
  | readTail | writeTail
deriving DecidableEq, Repr

/-- A `ResilientConnection` as far as the bookkeeping claims observe it: its
provenance and a unique allocation number. -/
structure Conn where
  kind : ConnKind
  connId : Nat
deriving DecidableEq, Repr

/-- Source `metadataTable`. -/
def metadataTable (tableName : String) : String :=
  "skdb__" ++ tableName ++ "_sync_metadata"

/-- The `SKDB` client state observed by the replication-coordinator claims:
the two sync-connection maps, the `mirroredTables` map (table name to session
id), and the set of tables existing in the local engine (`tableExists`; the
engine itself is an out-of-scope collaborator, so table existence is the only
fact about it kept here).  `nextConn` numbers connection allocations. -/
structure SKDB where
  tables : List String
  mirroredTables : List (String × Nat)
  localToServerSyncConnections : List (String × Conn)
  serverToLocalSyncConnections : List (String × Conn)
  nextConn : Nat
deriving DecidableEq, Repr

/-- Constructor state of `SKDB`: all maps empty. -/
def SKDB.init : SKDB :=
  { tables := [], mirroredTables := [], localToServerSyncConnections := [],
    serverToLocalSyncConnections := [], nextConn := 0 }

/-- Source `SKDB.tableExists` (via the engine's `dump-table`). -/
def SKDB.tableExists (m : SKDB) (tableName : String) : Bool :=
  m.tables.contains tableName

/-- Source `SKDB.connectReadTable`: the existing-connection check reads
`serverToLocalSyncConnections[tableName]`, but the new connection is
registered under `localToServerSyncConnections[tableName]`. -/
def SKDB.connectReadTable (m : SKDB) (tableName : String) :
    Except String SKDB :=
  match alookup m.serverToLocalSyncConnections tableName with
  | some _ => .error "Trying to connect an already connected table"
  | none =>
    let newConn : Conn := ⟨.readTail, m.nextConn⟩
    .ok { m with
      nextConn := m.nextConn + 1,
      localToServerSyncConnections :=
        aset m.localToServerSyncConnections tableName newConn }

/-- Source `SKDB.connectWriteTable`: checks and registers
`localToServerSyncConnections[tableName]`. -/
def SKDB.connectWriteTable (m : SKDB) (tableName : String) :
    Except String SKDB :=
  match alookup m.localToServerSyncConnections tableName with
  | some _ => .error "Trying to connect an already connected table"
  | none =>
    let newConn : Conn := ⟨.writeTail, m.nextConn⟩
    .ok { m with
      nextConn := m.nextConn + 1,
      localToServerSyncConnections :=
        aset m.localToServerSyncConnections tableName newConn }

/-- Source `SKDB.setMirroredTable`. -/
def SKDB.setMirroredTable (m : SKDB) (tableName : String) (sessionID : Nat) :
    SKDB :=
  { m with mirroredTables := aset m.mirroredTables tableName sessionID }

/-- Source `SKDBServer.mirrorTable`: if the local engine lacks the table, run
the schema DDL and create the `skdb__<table>_sync_metadata` table; then
`connectWriteTable`, then `connectReadTable`, then record the mirrored
table. -/
def SKDBServer.mirrorTable (m : SKDB) (tableName : String) (sessionID : Nat) :
    Except String SKDB := do
  let m :=
    if m.tableExists tableName then m
    else { m with tables := tableName :: metadataTable tableName :: m.tables }
  let m ← m.connectWriteTable tableName
  let m ← m.connectReadTable tableName
  .ok (m.setMirroredTable tableName sessionID)

/-- Shape of the per-stream operations iterated by the socket loops: each call
either leaves the state unchanged (and then the stream is not OPEN), or
rewrites the stream to a non-OPEN state, possibly erasing its table entry. -/
def StepOk (f : Mux → Nat → Mux × List Effect) : Prop :=
  ∀ m id,
    ((f m id).1 = m ∧ m.lookupStream id ≠ some .OPEN) ∨
    (∃ st, st ≠ StreamState.OPEN ∧
      ((f m id).1 = m.setStream id st ∨
       (f m id).1 =
         { m.setStream id st with activeStreams := m.activeStreams.erase id }))

/-- The state invariant of the mux machine maintained by every reachable
state: the table only holds constructed streams, OPEN streams only exist
while the socket is AUTH_SENT, every OPEN stream is in the table, and the
next client stream id is odd. -/
def MuxInv (m : Mux) : Prop :=
  (∀ id ∈ m.activeStreams, (m.lookupStream id).isSome) ∧
  (∀ id, m.lookupStream id = some .OPEN → m.state = .AUTH_SENT) ∧
  (∀ id, m.lookupStream id = some .OPEN → id ∈ m.activeStreams) ∧
  m.nextStream % 2 = 1

/- ********************************************************************** -/
/- Theorems                                                               -/
/- ********************************************************************** -/

theorem utf8EncodeChar_length_pos (n : Nat) : 1 ≤ (utf8EncodeChar n).length := by
  unfold utf8EncodeChar
  split_ifs <;> simp

theorem utf8EncodeChar_length_le (n : Nat) : (utf8EncodeChar n).length ≤ 4 := by
  unfold utf8EncodeChar
  split_ifs <;> simp

theorem char_toNat_lt (c : Char) : c.toNat < 0x110000 := by
  have h := c.valid
  simp only [UInt32.isValidChar, Nat.isValidChar, Char.toNat] at h ⊢
  omega

theorem utf8DecodeOne_encodeChar (n : Nat) (hn : n < 0x110000)
    (rest : List Nat) :
    utf8DecodeOne (utf8EncodeChar n ++ rest) = some (n, rest) := by
  unfold utf8EncodeChar
  by_cases h1 : n < 0x80
  · rw [if_pos h1]
    simp only [List.cons_append, List.nil_append, utf8DecodeOne]
    rw [if_pos h1]
  · rw [if_neg h1]
    by_cases h2 : n < 0x800
    · rw [if_pos h2]
      simp only [List.cons_append, List.nil_append, utf8DecodeOne]
      rw [if_neg (by omega : ¬(0xC0 + n / 64 < 0x80)),
        if_neg (by omega : ¬(0xC0 + n / 64 < 0xC0)),
        if_pos (by omega : 0xC0 + n / 64 < 0xE0),
        if_pos (by omega : (0x80 + n % 64) / 64 = 2)]
      have hv : (0xC0 + n / 64 - 0xC0) * 64 + (0x80 + n % 64 - 0x80) = n := by
        omega
      rw [hv]
    · rw [if_neg h2]
      by_cases h3 : n < 0x10000
      · rw [if_pos h3]
        simp only [List.cons_append, List.nil_append, utf8DecodeOne]
        rw [if_neg (by omega : ¬(0xE0 + n / 4096 < 0x80)),
          if_neg (by omega : ¬(0xE0 + n / 4096 < 0xC0)),
          if_neg (by omega : ¬(0xE0 + n / 4096 < 0xE0)),
          if_pos (by omega : 0xE0 + n / 4096 < 0xF0),
          if_pos (⟨by omega, by omega⟩ :
            (0x80 + n / 64 % 64) / 64 = 2 ∧ (0x80 + n % 64) / 64 = 2)]
        have hv : (0xE0 + n / 4096 - 0xE0) * 4096 +
            (0x80 + n / 64 % 64 - 0x80) * 64 + (0x80 + n % 64 - 0x80) = n := by
          omega
        rw [hv]
      · rw [if_neg h3]
        simp only [List.cons_append, List.nil_append, utf8DecodeOne]
        rw [if_neg (by omega : ¬(0xF0 + n / 262144 < 0x80)),
          if_neg (by omega : ¬(0xF0 + n / 262144 < 0xC0)),
          if_neg (by omega : ¬(0xF0 + n / 262144 < 0xE0)),
          if_neg (by omega : ¬(0xF0 + n / 262144 < 0xF0)),
          if_pos (by omega : 0xF0 + n / 262144 < 0xF8),
          if_pos (⟨by omega, by omega, by omega⟩ :
            (0x80 + n / 4096 % 64) / 64 = 2 ∧ (0x80 + n / 64 % 64) / 64 = 2 ∧
            (0x80 + n % 64) / 64 = 2)]
        have hv : (0xF0 + n / 262144 - 0xF0) * 262144 +
            (0x80 + n / 4096 % 64 - 0x80) * 4096 +
            (0x80 + n / 64 % 64 - 0x80) * 64 + (0x80 + n % 64 - 0x80) = n := by
          omega
        rw [hv]

theorem utf8DecodeNats_cons (b : Nat) (rest : List Nat) :
    utf8DecodeNats (b :: rest) =
      match utf8DecodeOne (b :: rest) with
      | none => none
      | some p => (utf8DecodeNats p.2).map (p.1 :: ·) := by
  rw [utf8DecodeNats]
  rcases hd : utf8DecodeOne (b :: rest) with _ | p <;> simp [hd]

theorem utf8DecodeNats_encodeChar (n : Nat) (hn : n < 0x110000)
    (rest : List Nat) :
    utf8DecodeNats (utf8EncodeChar n ++ rest) =
      (utf8DecodeNats rest).map (n :: ·) := by
  obtain ⟨b, tl, henc⟩ : ∃ b tl, utf8EncodeChar n = b :: tl := by
    cases h : utf8EncodeChar n with
    | nil =>
      have hp := utf8EncodeChar_length_pos n
      rw [h] at hp
      simp at hp
    | cons b tl => exact ⟨b, tl, rfl⟩
  have hone := utf8DecodeOne_encodeChar n hn rest
  rw [henc] at hone ⊢
  rw [List.cons_append] at hone ⊢
  rw [utf8DecodeNats_cons, hone]

theorem utf8DecodeNats_encodeList (cs : List Nat)
    (h : ∀ n ∈ cs, n < 0x110000) (rest : List Nat) :
    utf8DecodeNats ((cs.map utf8EncodeChar).flatten ++ rest) =
      (utf8DecodeNats rest).map (cs ++ ·) := by
  induction cs with
  | nil => simp
  | cons c cs ih =>
    simp only [List.map_cons, List.flatten_cons, List.append_assoc]
    rw [utf8DecodeNats_encodeChar c (h c (by simp)) _,
      ih (fun n hn => h n (by simp [hn]))]
    cases utf8DecodeNats rest <;> simp

theorem utf8DecodeString_encode (s : String) :
    utf8DecodeString (utf8Encode s) = some s := by
  have hmap : utf8Encode s =
      ((s.data.map Char.toNat).map utf8EncodeChar).flatten := by
    simp only [utf8Encode, List.map_map]
    rfl
  have h := utf8DecodeNats_encodeList (s.data.map Char.toNat)
    (by
      intro n hn
      simp only [List.mem_map] at hn
      obtain ⟨c, _, rfl⟩ := hn
      exact char_toNat_lt c) []
  rw [List.append_nil] at h
  rw [utf8DecodeString, hmap, h]
  have hid : ∀ l : List Char,
      (l.map Char.toNat).map Char.ofNat = l := by
    intro l
    rw [List.map_map]
    simp [Function.comp_def, Char.ofNat_toNat]
  obtain ⟨d⟩ := s
  simp [utf8DecodeNats, Option.map, List.map_map, Function.comp_def,
    Char.ofNat_toNat]

theorem utf8Encode_length_le (s : String) :
    (utf8Encode s).length ≤ 4 * s.length := by
  show ((s.data.map (fun c => utf8EncodeChar c.toNat)).flatten).length ≤
    4 * s.data.length
  induction s.data with
  | nil => simp
  | cons c cs ih =>
    simp only [List.map_cons, List.flatten_cons, List.length_append,
      List.length_cons]
    have := utf8EncodeChar_length_le c.toNat
    omega

theorem u32be_head_tail (t s : Nat) (ht : t < 256) (hs : s < 2 ^ 24) :
    u32be (t * 2 ^ 24 + s) =
      t :: s / 2 ^ 16 % 256 :: s / 2 ^ 8 % 256 :: s % 256 :: [] := by
  simp only [u32be, List.cons.injEq, and_true]
  refine ⟨by omega, by omega, by omega, by omega⟩

theorem stream_recons (s : Nat) (hs : s < 2 ^ 24) :
    s / 2 ^ 16 % 256 * 2 ^ 16 + s / 2 ^ 8 % 256 * 2 ^ 8 + s % 256 = s := by
  omega

/-- C6: frame-codec round trip.  For every data, close, reset, and goaway
frame whose stream id (resp. lastStream) is below `2 ^ 24`, whose errorCode
fits a u32, whose payload is bytes, and whose message has length at most
`2 ^ 16`, decoding the encoded bytes recovers the original frame fields. -/
theorem c6_frame_roundtrip (stream lastStream errorCode : Nat)
    (payload : List Nat) (msg : String)
    (hs : stream < 2 ^ 24) (hl : lastStream < 2 ^ 24)
    (he : errorCode < 2 ^ 32) (hp : ∀ b ∈ payload, b < 256)
    (hm : msg.length ≤ 2 ^ 16) :
    ((MuxedSocket.encodeStreamDataMsg stream payload).toOption.bind
        MuxedSocket.decode = some (.data stream payload))
    ∧ ((MuxedSocket.encodeStreamCloseMsg stream).toOption.bind
        MuxedSocket.decode = some (.close stream))
    ∧ ((MuxedSocket.encodeStreamResetMsg stream errorCode msg).toOption.bind
        MuxedSocket.decode = some (.reset stream errorCode msg))
    ∧ ((MuxedSocket.encodeGoawayMsg lastStream errorCode msg).toOption.bind
        MuxedSocket.decode = some (.goaway lastStream errorCode msg)) := by
  have hlen32 : (utf8Encode msg).length < 2 ^ 32 := by
    have := utf8Encode_length_le msg
    omega
  have hmod : errorCode % 2 ^ 32 = errorCode := Nat.mod_eq_of_lt he
  refine ⟨?_, ?_, ?_, ?_⟩
  · -- data
    have henc : MuxedSocket.encodeStreamDataMsg stream payload =
        .ok (u32be (0x2 * 2 ^ 24 + stream) ++ payload) := by
      unfold MuxedSocket.encodeStreamDataMsg
      rw [if_neg (by omega)]
    rw [henc]
    simp only [Except.toOption, Option.bind]
    rw [u32be_head_tail 2 stream (by omega) hs]
    simp only [List.cons_append, List.nil_append, MuxedSocket.decode]
    rw [stream_recons stream hs]
  · -- close
    have henc : MuxedSocket.encodeStreamCloseMsg stream =
        .ok (u32be (0x3 * 2 ^ 24 + stream)) := by
      unfold MuxedSocket.encodeStreamCloseMsg
      rw [if_neg (by omega)]
    rw [henc]
    simp only [Except.toOption, Option.bind]
    rw [u32be_head_tail 3 stream (by omega) hs]
    simp only [MuxedSocket.decode]
    rw [stream_recons stream hs]
  · -- reset
    have henc : MuxedSocket.encodeStreamResetMsg stream errorCode msg =
        .ok (u32be (0x4 * 2 ^ 24 + stream) ++ u32be (errorCode % 2 ^ 32)
          ++ u32be (utf8Encode msg).length ++ utf8Encode msg) := by
      unfold MuxedSocket.encodeStreamResetMsg
      rw [if_neg (by omega)]
    rw [henc, hmod]
    simp only [Except.toOption, Option.bind]
    rw [u32be_head_tail 4 stream (by omega) hs]
    simp only [u32be, List.cons_append, List.nil_append, MuxedSocket.decode]
    rw [show (utf8Encode msg).length / 2 ^ 24 % 256 * 2 ^ 24 +
        (utf8Encode msg).length / 2 ^ 16 % 256 * 2 ^ 16 +
        (utf8Encode msg).length / 2 ^ 8 % 256 * 2 ^ 8 +
        (utf8Encode msg).length % 256 = (utf8Encode msg).length from by omega]
    rw [if_pos (le_refl (utf8Encode msg).length),
      List.take_length, utf8DecodeString_encode]
    simp only [Option.map_some']
    rw [stream_recons stream hs]
    rw [show errorCode / 2 ^ 24 % 256 * 2 ^ 24 + errorCode / 2 ^ 16 % 256 *
        2 ^ 16 + errorCode / 2 ^ 8 % 256 * 2 ^ 8 + errorCode % 256 = errorCode
      from by omega]
  · -- goaway
    have henc : MuxedSocket.encodeGoawayMsg lastStream errorCode msg =
        .ok (u32be (0x1 * 2 ^ 24) ++ u32be lastStream
          ++ u32be (errorCode % 2 ^ 32) ++ u32be (utf8Encode msg).length
          ++ utf8Encode msg) := by
      unfold MuxedSocket.encodeGoawayMsg
      rw [if_neg (by omega)]
    rw [henc, hmod]
    simp only [Except.toOption, Option.bind]
    rw [show u32be (0x1 * 2 ^ 24) = 1 :: 0 :: 0 :: 0 :: [] from by decide]
    simp only [u32be, List.cons_append, List.nil_append, MuxedSocket.decode]
    rw [show (utf8Encode msg).length / 2 ^ 24 % 256 * 2 ^ 24 +
        (utf8Encode msg).length / 2 ^ 16 % 256 * 2 ^ 16 +
        (utf8Encode msg).length / 2 ^ 8 % 256 * 2 ^ 8 +
        (utf8Encode msg).length % 256 = (utf8Encode msg).length from by omega]
    rw [if_pos (le_refl (utf8Encode msg).length),
      List.take_length, utf8DecodeString_encode]
    simp only [Option.map_some']
    rw [show lastStream / 2 ^ 24 % 256 * 2 ^ 24 + lastStream / 2 ^ 16 % 256 *
        2 ^ 16 + lastStream / 2 ^ 8 % 256 * 2 ^ 8 + lastStream % 256 =
        lastStream from by omega]
    rw [show errorCode / 2 ^ 24 % 256 * 2 ^ 24 + errorCode / 2 ^ 16 % 256 *
        2 ^ 16 + errorCode / 2 ^ 8 % 256 * 2 ^ 8 + errorCode % 256 = errorCode
      from by omega]

/-- Witness for C6 at a concrete frame family. -/
theorem c6_frame_roundtrip_witness :
    ((5 : Nat) < 2 ^ 24 ∧ (6 : Nat) < 2 ^ 24 ∧ (42 : Nat) < 2 ^ 32 ∧
      (∀ b ∈ [1, 255], b < 256) ∧ "hé".length ≤ 2 ^ 16)
    ∧ ((MuxedSocket.encodeStreamDataMsg 5 [1, 255]).toOption.bind
        MuxedSocket.decode = some (.data 5 [1, 255]))
    ∧ ((MuxedSocket.encodeStreamCloseMsg 5).toOption.bind
        MuxedSocket.decode = some (.close 5))
    ∧ ((MuxedSocket.encodeStreamResetMsg 5 42 "hé").toOption.bind
        MuxedSocket.decode = some (.reset 5 42 "hé"))
    ∧ ((MuxedSocket.encodeGoawayMsg 6 42 "hé").toOption.bind
        MuxedSocket.decode = some (.goaway 6 42 "hé")) := by
  have h := c6_frame_roundtrip 5 6 42 [1, 255] "hé" (by decide) (by decide)
    (by decide) (by decide) (by decide)
  exact ⟨⟨by decide, by decide, by decide, by decide, by decide⟩,
    h.1, h.2.1, h.2.2.1, h.2.2.2⟩

theorem encodeIntoWrittenGo_of_le (cap : Nat) (cs : List Char) (acc : Nat)
    (h : acc + ((cs.map (fun c => utf8EncodeChar c.toNat)).flatten).length ≤
      cap) :
    encodeIntoWrittenGo cap cs acc =
      acc + ((cs.map (fun c => utf8EncodeChar c.toNat)).flatten).length := by
  induction cs generalizing acc with
  | nil => simp [encodeIntoWrittenGo]
  | cons c cs ih =>
    simp only [List.map_cons, List.flatten_cons, List.length_append] at h ⊢
    rw [encodeIntoWrittenGo]
    rw [if_pos (by omega)]
    rw [ih (acc + (utf8EncodeChar c.toNat).length) (by omega)]
    omega

theorem encodeIntoWrittenGo_stop (cap : Nat) (cs : List Char) (acc : Nat) :
    encodeIntoWrittenGo cap cs acc =
        acc + ((cs.map (fun c => utf8EncodeChar c.toNat)).flatten).length
    ∨ cap < encodeIntoWrittenGo cap cs acc + 5 := by
  induction cs generalizing acc with
  | nil => left; simp [encodeIntoWrittenGo]
  | cons c cs ih =>
    rw [encodeIntoWrittenGo]
    by_cases hc : acc + (utf8EncodeChar c.toNat).length ≤ cap
    · rw [if_pos hc]
      rcases ih (acc + (utf8EncodeChar c.toNat).length) with h | h
      · left
        simp only [List.map_cons, List.flatten_cons, List.length_append]
        omega
      · right
        exact h
    · rw [if_neg hc]
      right
      have := utf8EncodeChar_length_le c.toNat
      omega

theorem encodeIntoWritten_88_eq_twenty (s : String) :
    encodeIntoWritten s 88 = 20 ↔ utf8Len s = 20 := by
  have hlen : utf8Len s =
      ((s.data.map (fun c => utf8EncodeChar c.toNat)).flatten).length := rfl
  constructor
  · intro h
    rw [encodeIntoWritten] at h
    rcases encodeIntoWrittenGo_stop 88 s.data 0 with h' | h'
    · rw [h] at h'
      omega
    · rw [h] at h'
      omega
  · intro h
    rw [encodeIntoWritten,
      encodeIntoWrittenGo_of_le 88 s.data 0 (by omega)]
    omega

/-- C2 counterexample: the claim "for every accessKey encoding to between 1
and 20 bytes the access-key check passes" is false; an access key of a single
UTF-8 byte (`"a"`) makes `encodeAuthMsg` throw "Unable to encode access
key". -/
theorem c2_accessKey_check_refuted :
    ¬ (∀ (accessKey now : String) (nonce sig : List Nat),
        1 ≤ utf8Len accessKey → utf8Len accessKey ≤ 20 →
        MuxedSocket.encodeAuthMsg accessKey now nonce sig ≠
          Except.error "Unable to encode access key") := by
  intro h
  exact h "a" "2024-01-02T03:04:05.678Z" [] [] (by decide) (by decide) rfl

/-- C2 amended: binary auth-frame construction fails at the access-key step
if and only if the accessKey does not encode to exactly 20 UTF-8 bytes (the
source checks `encodeAccessKey.written != 20`). -/
theorem c2_accessKey_check_exact20 (accessKey now : String)
    (nonce sig : List Nat) :
    MuxedSocket.encodeAuthMsg accessKey now nonce sig =
        Except.error "Unable to encode access key" ↔
      utf8Len accessKey ≠ 20 := by
  have hiff := encodeIntoWritten_88_eq_twenty accessKey
  unfold MuxedSocket.encodeAuthMsg
  simp only []
  by_cases hk : encodeIntoWritten accessKey 88 = 20
  · rw [if_neg (by simp [hk])]
    constructor
    · intro h
      split_ifs at h <;>
        first
        | exact Except.noConfusion h
        | (injection h with h'
           exact absurd h' (by decide))
    · intro hl
      exact absurd (hiff.mp hk) hl
  · rw [if_pos (by simp [hk])]
    constructor
    · intro _
      intro hl
      exact hk (hiff.mpr hl)
    · intro _
      rfl

/-- Witness for C2's amended theorem at a concrete 20-byte access key. -/
theorem c2_accessKey_check_exact20_witness :
    (MuxedSocket.encodeAuthMsg "ABCDEFGHIJKLMNOPQRST"
        "2024-01-02T03:04:05.678Z" [0, 1, 2, 3, 4, 5, 6, 7]
        (List.replicate 32 9) =
        Except.error "Unable to encode access key" ↔
      utf8Len "ABCDEFGHIJKLMNOPQRST" ≠ 20) :=
  c2_accessKey_check_exact20 "ABCDEFGHIJKLMNOPQRST" "2024-01-02T03:04:05.678Z"
    [0, 1, 2, 3, 4, 5, 6, 7] (List.replicate 32 9)

theorem streamsLookup_cons (a : Nat) (b : StreamState)
    (rest : List (Nat × StreamState)) (k : Nat) :
    streamsLookup ((a, b) :: rest) k =
      if a = k then some b else streamsLookup rest k := rfl

theorem streamsSet_cons (a : Nat) (b : StreamState)
    (rest : List (Nat × StreamState)) (id : Nat) (st : StreamState) :
    streamsSet ((a, b) :: rest) id st =
      (if a = id then (id, st) else (a, b)) :: streamsSet rest id st := rfl

theorem streamsLookup_streamsSet (l : List (Nat × StreamState)) (id k : Nat)
    (st : StreamState) :
    streamsLookup (streamsSet l id st) k =
      if k = id then
        (if (streamsLookup l id).isSome then some st else none)
      else streamsLookup l k := by
  induction l with
  | nil => simp [streamsSet, streamsLookup]
  | cons p rest ih =>
    rcases p with ⟨a, b⟩
    rw [streamsSet_cons]
    by_cases ha : a = id
    · rw [if_pos ha, streamsLookup_cons]
      by_cases hk : id = k
      · rw [if_pos hk, if_pos hk.symm, streamsLookup_cons, if_pos ha]
        rfl
      · rw [if_neg hk, ih, if_neg (fun h => hk h.symm),
          if_neg (fun h => hk h.symm), streamsLookup_cons,
          if_neg (show ¬ a = k from ha ▸ hk)]
    · rw [if_neg ha, streamsLookup_cons]
      by_cases hak : a = k
      · rw [if_pos hak, if_neg (show ¬ k = id from fun h => ha (hak.trans h)),
          streamsLookup_cons, if_pos hak]
      · rw [if_neg hak, ih]
        by_cases hk : k = id
        · rw [if_pos hk, if_pos hk, streamsLookup_cons, if_neg ha]
        · rw [if_neg hk, if_neg hk, streamsLookup_cons, if_neg hak]

theorem lookupStream_setStream (m : Mux) (id k : Nat) (st : StreamState) :
    (m.setStream id st).lookupStream k =
      if k = id then
        (if (m.lookupStream id).isSome then some st else none)
      else m.lookupStream k := by
  simp only [Mux.setStream, Mux.lookupStream]
  exact streamsLookup_streamsSet m.streams id k st

theorem stepOk_close : StepOk Stream.close := by
  intro m id
  rcases hl : m.lookupStream id with _ | st
  · exact .inl ⟨by simp only [Stream.close, hl], by simp [hl]⟩
  · cases st with
    | CLOSING => exact .inl ⟨by simp only [Stream.close, hl], by simp [hl]⟩
    | CLOSED => exact .inl ⟨by simp only [Stream.close, hl], by simp [hl]⟩
    | OPEN =>
      refine .inr ⟨.CLOSING, by simp, ?_⟩
      simp only [Stream.close, hl, MuxedSocket.streamClose, Mux.setStream]
      cases m.state <;> simp
    | CLOSEWAIT =>
      refine .inr ⟨.CLOSED, by simp, ?_⟩
      simp only [Stream.close, hl, MuxedSocket.streamClose, Mux.setStream]
      cases m.state <;> simp

theorem stepOk_error (errorCode : Nat) (msg : String) :
    StepOk (fun m id => Stream.error m id errorCode msg) := by
  intro m id
  rcases hl : m.lookupStream id with _ | st
  · exact .inl ⟨by simp only [Stream.error, hl], by simp [hl]⟩
  · cases st with
    | CLOSING =>
      refine .inr ⟨.CLOSED, by simp, .inl ?_⟩
      simp only [Stream.error, hl]
    | CLOSED =>
      refine .inr ⟨.CLOSED, by simp, .inl ?_⟩
      simp only [Stream.error, hl]
    | OPEN =>
      refine .inr ⟨.CLOSED, by simp, ?_⟩
      simp only [Stream.error, hl, MuxedSocket.streamError, Mux.setStream]
      cases m.state <;> simp
    | CLOSEWAIT =>
      refine .inr ⟨.CLOSED, by simp, ?_⟩
      simp only [Stream.error, hl, MuxedSocket.streamError, Mux.setStream]
      cases m.state <;> simp

theorem stepOk_onStreamCloseF :
    StepOk (fun m id =>
      ((Stream.onStreamClose m id).1, (Stream.onStreamClose m id).2.1)) := by
  intro m id
  rcases hl : m.lookupStream id with _ | st
  · exact .inl ⟨by simp only [Stream.onStreamClose, hl], by simp [hl]⟩
  · cases st with
    | CLOSED => exact .inl ⟨by simp only [Stream.onStreamClose, hl], by simp [hl]⟩
    | CLOSEWAIT => exact .inl ⟨by simp only [Stream.onStreamClose, hl], by simp [hl]⟩
    | OPEN =>
      exact .inr ⟨.CLOSEWAIT, by simp, .inl (by simp only [Stream.onStreamClose, hl])⟩
    | CLOSING =>
      exact .inr ⟨.CLOSED, by simp, .inl (by simp only [Stream.onStreamClose, hl])⟩

theorem stepOk_onStreamError (errorCode : Nat) (msg : String) :
    StepOk (fun m id => Stream.onStreamError m id errorCode msg) := by
  intro m id
  rcases hl : m.lookupStream id with _ | st
  · exact .inl ⟨by simp only [Stream.onStreamError, hl], by simp [hl]⟩
  · cases st with
    | CLOSED => exact .inl ⟨by simp only [Stream.onStreamError, hl], by simp [hl]⟩
    | CLOSING =>
      exact .inr ⟨.CLOSED, by simp, .inl (by simp only [Stream.onStreamError, hl])⟩
    | OPEN =>
      exact .inr ⟨.CLOSED, by simp, .inl (by simp only [Stream.onStreamError, hl])⟩
    | CLOSEWAIT =>
      exact .inr ⟨.CLOSED, by simp, .inl (by simp only [Stream.onStreamError, hl])⟩

theorem stepOk_fields (f : Mux → Nat → Mux × List Effect) (hf : StepOk f)
    (m : Mux) (id : Nat) :
    (f m id).1.state = m.state ∧ (f m id).1.nextStream = m.nextStream ∧
    (f m id).1.serverStreamWatermark = m.serverStreamWatermark := by
  rcases hf m id with ⟨h, _⟩ | ⟨st, _, h | h⟩ <;> rw [h] <;>
    exact ⟨rfl, rfl, rfl⟩

theorem stepOk_lookup_ne (f : Mux → Nat → Mux × List Effect) (hf : StepOk f)
    (m : Mux) (id k : Nat) (hk : k ≠ id) :
    (f m id).1.lookupStream k = m.lookupStream k := by
  rcases hf m id with ⟨h, _⟩ | ⟨st, _, h | h⟩ <;> rw [h]
  · rw [lookupStream_setStream, if_neg hk]
  · show (m.setStream id st).lookupStream k = _
    rw [lookupStream_setStream, if_neg hk]

theorem stepOk_lookup_id (f : Mux → Nat → Mux × List Effect) (hf : StepOk f)
    (m : Mux) (id : Nat) :
    (f m id).1.lookupStream id ≠ some .OPEN := by
  rcases hf m id with ⟨h, hno⟩ | ⟨st, hst, h | h⟩ <;> rw [h]
  · exact hno
  · rw [lookupStream_setStream, if_pos rfl]
    by_cases hs : (m.lookupStream id).isSome
    · rw [if_pos hs]
      intro heq
      exact hst (Option.some.inj heq)
    · rw [if_neg hs]
      exact fun heq => Option.noConfusion heq
  · show (m.setStream id st).lookupStream id ≠ some .OPEN
    rw [lookupStream_setStream, if_pos rfl]
    by_cases hs : (m.lookupStream id).isSome
    · rw [if_pos hs]
      intro heq
      exact hst (Option.some.inj heq)
    · rw [if_neg hs]
      exact fun heq => Option.noConfusion heq

theorem stepOk_lookup_open (f : Mux → Nat → Mux × List Effect) (hf : StepOk f)
    (m : Mux) (id k : Nat)
    (h : (f m id).1.lookupStream k = some .OPEN) :
    m.lookupStream k = some .OPEN ∧ k ≠ id := by
  by_cases hk : k = id
  · subst hk
    exact absurd h (stepOk_lookup_id f hf m k)
  · exact ⟨stepOk_lookup_ne f hf m id k hk ▸ h, hk⟩

theorem stepOk_isSome (f : Mux → Nat → Mux × List Effect) (hf : StepOk f)
    (m : Mux) (id k : Nat) :
    ((f m id).1.lookupStream k).isSome = (m.lookupStream k).isSome := by
  by_cases hk : k = id
  · subst hk
    rcases hf m k with ⟨h, _⟩ | ⟨st, _, h | h⟩ <;> rw [h]
    · rw [lookupStream_setStream, if_pos rfl]
      cases hs : (m.lookupStream k).isSome <;> simp [hs]
    · show ((m.setStream k st).lookupStream k).isSome = _
      rw [lookupStream_setStream, if_pos rfl]
      cases hs : (m.lookupStream k).isSome <;> simp [hs]
  · rw [stepOk_lookup_ne f hf m id k hk]

theorem stepOk_table (f : Mux → Nat → Mux × List Effect) (hf : StepOk f)
    (m : Mux) (id : Nat) :
    (f m id).1.activeStreams = m.activeStreams ∨
    (f m id).1.activeStreams = m.activeStreams.erase id := by
  rcases hf m id with ⟨h, _⟩ | ⟨st, _, h | h⟩ <;> rw [h]
  · exact .inl rfl
  · exact .inl rfl
  · exact .inr rfl

theorem foldStreams_fields (f : Mux → Nat → Mux × List Effect)
    (hf : StepOk f) (ids : List Nat) (m : Mux) :
    (foldStreams f m ids).1.state = m.state ∧
    (foldStreams f m ids).1.nextStream = m.nextStream ∧
    (foldStreams f m ids).1.serverStreamWatermark =
      m.serverStreamWatermark := by
  induction ids generalizing m with
  | nil => exact ⟨rfl, rfl, rfl⟩
  | cons id rest ih =>
    simp only [foldStreams]
    obtain ⟨h1, h2, h3⟩ := stepOk_fields f hf m id
    obtain ⟨g1, g2, g3⟩ := ih (f m id).1
    exact ⟨g1.trans h1, g2.trans h2, g3.trans h3⟩

theorem foldStreams_isSome (f : Mux → Nat → Mux × List Effect)
    (hf : StepOk f) (ids : List Nat) (m : Mux) (k : Nat) :
    ((foldStreams f m ids).1.lookupStream k).isSome =
      (m.lookupStream k).isSome := by
  induction ids generalizing m with
  | nil => rfl
  | cons id rest ih =>
    simp only [foldStreams]
    rw [ih (f m id).1, stepOk_isSome f hf m id k]

theorem foldStreams_table_sub (f : Mux → Nat → Mux × List Effect)
    (hf : StepOk f) (ids : List Nat) (m : Mux) (k : Nat)
    (h : k ∈ (foldStreams f m ids).1.activeStreams) :
    k ∈ m.activeStreams := by
  induction ids generalizing m with
  | nil => exact h
  | cons id rest ih =>
    simp only [foldStreams] at h
    have := ih (f m id).1 h
    rcases stepOk_table f hf m id with ht | ht <;> rw [ht] at this
    · exact this
    · exact List.mem_of_mem_erase this

theorem foldStreams_no_open (f : Mux → Nat → Mux × List Effect)
    (hf : StepOk f) (ids : List Nat) (m : Mux)
    (h : ∀ k, m.lookupStream k = some .OPEN → k ∈ ids) (k : Nat) :
    (foldStreams f m ids).1.lookupStream k ≠ some .OPEN := by
  induction ids generalizing m with
  | nil =>
    intro hk
    exact absurd (h k hk) (List.not_mem_nil k)
  | cons id rest ih =>
    simp only [foldStreams]
    apply ih (f m id).1
    intro k' hk'
    obtain ⟨hm, hne⟩ := stepOk_lookup_open f hf m id k' hk'
    rcases List.mem_cons.mp (h k' hm) with heq | hmem
    · exact absurd heq hne
    · exact hmem

theorem error_lookup_closed (m : Mux) (id errorCode : Nat) (msg : String)
    (h : (m.lookupStream id).isSome) :
    (Stream.error m id errorCode msg).1.lookupStream id = some .CLOSED := by
  rcases hl : m.lookupStream id with _ | st
  · rw [hl] at h
    simp at h
  · cases st <;>
      simp only [Stream.error, hl, MuxedSocket.streamError, Mux.setStream]
    · cases m.state <;>
        · show (m.setStream id .CLOSED).lookupStream id = some .CLOSED
          rw [lookupStream_setStream, if_pos rfl, if_pos (by rw [hl]; rfl)]
    · show (m.setStream id .CLOSED).lookupStream id = some .CLOSED
      rw [lookupStream_setStream, if_pos rfl, if_pos (by rw [hl]; rfl)]
    · cases m.state <;>
        · show (m.setStream id .CLOSED).lookupStream id = some .CLOSED
          rw [lookupStream_setStream, if_pos rfl, if_pos (by rw [hl]; rfl)]
    · show (m.setStream id .CLOSED).lookupStream id = some .CLOSED
      rw [lookupStream_setStream, if_pos rfl, if_pos (by rw [hl]; rfl)]

theorem error_preserves_closed (m : Mux) (id errorCode : Nat) (msg : String)
    (k : Nat) (h : m.lookupStream k = some .CLOSED) :
    (Stream.error m id errorCode msg).1.lookupStream k = some .CLOSED := by
  by_cases hk : k = id
  · subst hk
    exact error_lookup_closed m k errorCode msg (by rw [h]; rfl)
  · rw [stepOk_lookup_ne _ (stepOk_error errorCode msg) m id k hk]
    exact h

theorem foldStreams_error_pres_closed (errorCode : Nat) (msg : String)
    (ids : List Nat) :
    ∀ (m : Mux) (k : Nat), m.lookupStream k = some .CLOSED →
      (foldStreams (fun m id => Stream.error m id errorCode msg) m
        ids).1.lookupStream k = some .CLOSED := by
  induction ids with
  | nil => exact fun m k h => h
  | cons id rest ih =>
    intro m k h
    simp only [foldStreams]
    exact ih _ k (error_preserves_closed m id errorCode msg k h)

theorem foldStreams_error_closed (errorCode : Nat) (msg : String)
    (ids : List Nat) :
    ∀ m : Mux, (∀ k ∈ ids, (m.lookupStream k).isSome) →
      ∀ k ∈ ids, (foldStreams (fun m id => Stream.error m id errorCode msg) m
        ids).1.lookupStream k = some .CLOSED := by
  induction ids with
  | nil =>
    intro m _ k hk
    exact absurd hk (List.not_mem_nil k)
  | cons id rest ih =>
    intro m h k hk
    simp only [foldStreams]
    rcases List.mem_cons.mp hk with rfl | hk'
    · exact foldStreams_error_pres_closed errorCode msg rest _ k
        (error_lookup_closed m k errorCode msg (h k (List.mem_cons_self k rest)))
    · refine ih (Stream.error m id errorCode msg).1 ?_ k hk'
      intro k' hk''
      rw [stepOk_isSome _ (stepOk_error errorCode msg) m id k']
      exact h k' (List.mem_cons_of_mem id hk'')

theorem onStreamData_fst (m : Mux) (id : Nat) (data : List Nat) :
    (Stream.onStreamData m id data).1 = m := by
  rcases hl : m.lookupStream id with _ | st
  · simp only [Stream.onStreamData, hl]
  · cases st <;> simp only [Stream.onStreamData, hl]

theorem muxInv_of_no_open (m' : Mux)
    (hno : ∀ id, m'.lookupStream id ≠ some .OPEN)
    (h1 : ∀ id ∈ m'.activeStreams, (m'.lookupStream id).isSome)
    (hodd : m'.nextStream % 2 = 1) : MuxInv m' :=
  ⟨h1, fun id h => absurd h (hno id), fun id h => absurd h (hno id), hodd⟩

theorem stepOk_preserves_inv (f : Mux → Nat → Mux × List Effect)
    (hf : StepOk f) (m : Mux) (id : Nat) (hinv : MuxInv m) :
    MuxInv (f m id).1 := by
  obtain ⟨h1, h2, h3, h4⟩ := hinv
  obtain ⟨hst, hnext, _⟩ := stepOk_fields f hf m id
  refine ⟨?_, ?_, ?_, by rw [hnext]; exact h4⟩
  · intro k hk
    rw [stepOk_isSome f hf m id k]
    apply h1
    rcases stepOk_table f hf m id with ht | ht <;> rw [ht] at hk
    · exact hk
    · exact List.mem_of_mem_erase hk
  · intro k hk
    obtain ⟨hm, _⟩ := stepOk_lookup_open f hf m id k hk
    rw [hst]
    exact h2 k hm
  · intro k hk
    obtain ⟨hm, hne⟩ := stepOk_lookup_open f hf m id k hk
    have hmem := h3 k hm
    rcases stepOk_table f hf m id with ht | ht <;> rw [ht]
    · exact hmem
    · exact (List.mem_erase_of_ne hne).mpr hmem

theorem muxInv_erase_of (f : Mux → Nat → Mux × List Effect) (hf : StepOk f)
    (m : Mux) (id : Nat) (hinv : MuxInv m) :
    MuxInv { (f m id).1 with
      activeStreams := (f m id).1.activeStreams.erase id } := by
  obtain ⟨h1, h2, h3, h4⟩ := stepOk_preserves_inv f hf m id hinv
  refine ⟨?_, h2, ?_, h4⟩
  · intro k hk
    exact h1 k (List.mem_of_mem_erase hk)
  · intro k hk
    obtain ⟨_, hne⟩ := stepOk_lookup_open f hf m id k hk
    exact (List.mem_erase_of_ne hne).mpr (h3 k hk)

theorem muxInv_onSocketError (m : Mux) (errorCode : Nat) (msg : String)
    (hinv : MuxInv m) : MuxInv (MuxedSocket.onSocketError m errorCode msg).1 := by
  obtain ⟨h1, h2, h3, h4⟩ := hinv
  cases hs : m.state <;>
    simp only [MuxedSocket.onSocketError, hs]
  case CLOSED => exact ⟨h1, h2, h3, h4⟩
  all_goals
    refine muxInv_of_no_open _ ?_ ?_ ?_
  all_goals
    try
      (intro k
       exact foldStreams_no_open _ (stepOk_onStreamError 0 msg)
         m.activeStreams m h3 k)
  all_goals
    try (intro k hk; exact absurd hk (List.not_mem_nil k))
  all_goals
    exact (foldStreams_fields _ (stepOk_onStreamError 0 msg)
      m.activeStreams m).2.1 ▸ h4

theorem muxInv_sendAuth (m : Mux) (hinv : MuxInv m) :
    MuxInv (MuxedSocket.sendAuth m).1 := by
  obtain ⟨h1, h2, h3, h4⟩ := hinv
  cases hs : m.state <;> simp only [MuxedSocket.sendAuth, hs]
  case IDLE => exact ⟨h1, fun id _ => rfl, h3, h4⟩
  all_goals exact ⟨h1, h2, h3, h4⟩

theorem muxInv_openStream (m : Mux) (hinv : MuxInv m) :
    MuxInv (MuxedSocket.step m .openStream).1 := by
  obtain ⟨h1, h2, h3, h4⟩ := hinv
  cases hs : m.state <;>
    simp only [MuxedSocket.step, MuxedSocket.openStream, hs]
  case AUTH_SENT =>
    refine ⟨?_, fun id _ => rfl, ?_, by show (m.nextStream + 2) % 2 = 1; omega⟩
    · intro k hk
      show (streamsLookup ((m.nextStream, .OPEN) :: m.streams) k).isSome
      rw [streamsLookup_cons]
      by_cases hn : m.nextStream = k
      · rw [if_pos hn]
        rfl
      · rw [if_neg hn]
        rcases List.mem_append.mp hk with hk' | hk'
        · exact h1 k hk'
        · rw [List.mem_singleton] at hk'
          exact absurd hk'.symm hn
    · intro k hk
      replace hk : streamsLookup ((m.nextStream, .OPEN) :: m.streams) k =
          some .OPEN := hk
      rw [streamsLookup_cons] at hk
      by_cases hn : m.nextStream = k
      · exact List.mem_append_right _ (by rw [List.mem_singleton, hn])
      · rw [if_neg hn] at hk
        exact List.mem_append_left _ (h3 k hk)
  all_goals exact ⟨h1, h2, h3, h4⟩

theorem step_sendStream_fst (m : Mux) (id : Nat) (data : List Nat) :
    (MuxedSocket.step m (.sendStream id data)).1 = m := by
  rcases hl : m.lookupStream id with _ | st
  · simp [MuxedSocket.step, Stream.send, hl]
  · cases st <;>
      simp only [MuxedSocket.step, Stream.send, MuxedSocket.streamSend, hl] <;>
      cases m.state <;> rfl

theorem muxInv_closeSocket (m : Mux) (hinv : MuxInv m) :
    MuxInv (MuxedSocket.closeSocket m).1 := by
  obtain ⟨h1, h2, h3, h4⟩ := hinv
  cases hs : m.state <;> simp only [MuxedSocket.closeSocket, hs]
  case CLOSING => exact ⟨h1, h2, h3, h4⟩
  case CLOSED => exact ⟨h1, h2, h3, h4⟩
  case IDLE =>
    refine muxInv_of_no_open _ ?_ ?_ h4
    · intro k hk
      have := h2 k hk
      rw [hs] at this
      exact MuxedSocketState.noConfusion this
    · intro k hk
      exact absurd hk (List.not_mem_nil k)
  case CLOSEWAIT =>
    refine muxInv_of_no_open _ ?_ ?_ ?_
    · intro k
      exact foldStreams_no_open _ stepOk_close m.activeStreams m h3 k
    · intro k hk
      exact absurd hk (List.not_mem_nil k)
    · exact (foldStreams_fields _ stepOk_close m.activeStreams m).2.1 ▸ h4
  case AUTH_SENT =>
    refine muxInv_of_no_open _ ?_ ?_ ?_
    · intro k
      exact foldStreams_no_open _ stepOk_close m.activeStreams m h3 k
    · intro k hk
      show ((foldStreams Stream.close m m.activeStreams).1.lookupStream
        k).isSome
      rw [foldStreams_isSome _ stepOk_close m.activeStreams m k]
      exact h1 k (foldStreams_table_sub _ stepOk_close m.activeStreams m k hk)
    · exact (foldStreams_fields _ stepOk_close m.activeStreams m).2.1 ▸ h4

theorem muxInv_errorSocket (m : Mux) (errorCode : Nat) (msg : String)
    (hinv : MuxInv m) :
    MuxInv (MuxedSocket.errorSocket m errorCode msg).1 := by
  obtain ⟨h1, h2, h3, h4⟩ := hinv
  cases hs : m.state <;> simp only [MuxedSocket.errorSocket, hs]
  case IDLE =>
    refine muxInv_of_no_open _ ?_
      (fun k hk => absurd hk (List.not_mem_nil k)) h4
    intro k hk
    have := h2 k hk
    rw [hs] at this
    exact MuxedSocketState.noConfusion this
  case CLOSING =>
    refine muxInv_of_no_open _ ?_
      (fun k hk => absurd hk (List.not_mem_nil k)) h4
    intro k hk
    have := h2 k hk
    rw [hs] at this
    exact MuxedSocketState.noConfusion this
  case CLOSED =>
    refine muxInv_of_no_open _ ?_
      (fun k hk => absurd hk (List.not_mem_nil k)) h4
    intro k hk
    have := h2 k hk
    rw [hs] at this
    exact MuxedSocketState.noConfusion this
  all_goals
    refine muxInv_of_no_open _ ?_
      (fun k hk => absurd hk (List.not_mem_nil k)) ?_
  all_goals
    try
      (intro k
       exact foldStreams_no_open _ (stepOk_error errorCode msg)
         m.activeStreams m h3 k)
  all_goals
    exact (foldStreams_fields _ (stepOk_error errorCode msg)
      m.activeStreams m).2.1 ▸ h4

theorem muxInv_onSocketClose (m : Mux) (hinv : MuxInv m) :
    MuxInv (MuxedSocket.onSocketClose m).1 := by
  obtain ⟨h1, h2, h3, h4⟩ := hinv
  cases hs : m.state <;> simp only [MuxedSocket.onSocketClose, hs]
  case CLOSEWAIT => exact ⟨h1, h2, h3, h4⟩
  case CLOSED => exact ⟨h1, h2, h3, h4⟩
  case CLOSING =>
    refine muxInv_of_no_open _ ?_
      (fun k hk => absurd hk (List.not_mem_nil k)) ?_
    · intro k
      exact foldStreams_no_open _ stepOk_onStreamCloseF m.activeStreams m h3 k
    · exact (foldStreams_fields _ stepOk_onStreamCloseF
        m.activeStreams m).2.1 ▸ h4
  all_goals
    refine muxInv_of_no_open _ ?_ ?_ ?_
  all_goals
    try
      (intro k
       exact foldStreams_no_open _ stepOk_onStreamCloseF m.activeStreams m
         h3 k)
  all_goals
    try
      (intro k hk
       show ((foldStreams (fun m id => ((Stream.onStreamClose m id).1,
         (Stream.onStreamClose m id).2.1)) m
         m.activeStreams).1.lookupStream k).isSome
       rw [foldStreams_isSome _ stepOk_onStreamCloseF m.activeStreams m k]
       exact h1 k (foldStreams_table_sub _ stepOk_onStreamCloseF
         m.activeStreams m k hk))
  all_goals
    exact (foldStreams_fields _ stepOk_onStreamCloseF
      m.activeStreams m).2.1 ▸ h4

theorem onSocketMessage_ignore (m : Mux) (f : Frame)
    (hstate : m.state = .IDLE ∨ m.state = .CLOSEWAIT ∨ m.state = .CLOSED) :
    MuxedSocket.onSocketMessage m f = (m, []) := by
  rcases hstate with hs | hs | hs <;>
    simp only [MuxedSocket.onSocketMessage, hs]

theorem onSocketMessage_data_known (m : Mux) (id : Nat) (payload : List Nat)
    (hstate : m.state = .AUTH_SENT ∨ m.state = .CLOSING)
    (hmem : id ∈ m.activeStreams) :
    MuxedSocket.onSocketMessage m (.data id payload) =
      Stream.onStreamData m id payload := by
  rcases hstate with hs | hs <;>
    simp only [MuxedSocket.onSocketMessage, hs, if_pos hmem]

theorem onSocketMessage_data_accept (m : Mux) (id : Nat) (payload : List Nat)
    (hstate : m.state = .AUTH_SENT) (hmem : ¬ id ∈ m.activeStreams)
    (heven : id % 2 = 0) (hgt : id > m.serverStreamWatermark) :
    MuxedSocket.onSocketMessage m (.data id payload) =
      ({ m with serverStreamWatermark := id,
                streams := (id, StreamState.OPEN) :: m.streams,
                activeStreams := m.activeStreams ++ [id] },
       [.cbOnStream id, .cbStreamData id payload]) := by
  simp only [MuxedSocket.onSocketMessage, hstate, if_neg hmem,
    if_neg (show ¬ (MuxedSocketState.AUTH_SENT = .CLOSING) from
      fun h => MuxedSocketState.noConfusion h),
    if_pos (⟨heven, hgt⟩ : id % 2 = 0 ∧ id > m.serverStreamWatermark)]
  simp [Stream.onStreamData, Mux.lookupStream, streamsLookup_cons]

theorem onSocketMessage_data_drop_closing (m : Mux) (id : Nat)
    (payload : List Nat) (hstate : m.state = .CLOSING)
    (hmem : ¬ id ∈ m.activeStreams) :
    MuxedSocket.onSocketMessage m (.data id payload) = (m, []) := by
  simp only [MuxedSocket.onSocketMessage, hstate, if_neg hmem]
  simp

theorem onSocketMessage_data_drop (m : Mux) (id : Nat) (payload : List Nat)
    (hstate : m.state = .AUTH_SENT) (hmem : ¬ id ∈ m.activeStreams)
    (hcond : ¬ (id % 2 = 0 ∧ id > m.serverStreamWatermark)) :
    MuxedSocket.onSocketMessage m (.data id payload) = (m, []) := by
  simp only [MuxedSocket.onSocketMessage, hstate, if_neg hmem,
    if_neg (show ¬ (MuxedSocketState.AUTH_SENT = .CLOSING) from
      fun h => MuxedSocketState.noConfusion h),
    if_neg hcond]

theorem muxInv_onSocketMessage (m : Mux) (f : Frame) (hinv : MuxInv m) :
    MuxInv (MuxedSocket.onSocketMessage m f).1 := by
  by_cases hstate : m.state = .AUTH_SENT ∨ m.state = .CLOSING
  case neg =>
    rw [onSocketMessage_ignore m f (by cases hs : m.state <;> simp [hs] <;>
      (exfalso; apply hstate; rw [hs]; simp))]
    exact hinv
  case pos =>
    obtain ⟨h1, h2, h3, h4⟩ := hinv
    cases f with
    | auth =>
      rcases hstate with hs | hs <;>
        simp only [MuxedSocket.onSocketMessage, hs] <;>
        exact ⟨h1, h2, h3, h4⟩
    | goaway lastStream errorCode gmsg =>
      rcases hstate with hs | hs <;>
        simp only [MuxedSocket.onSocketMessage, hs] <;>
        exact muxInv_onSocketError m errorCode gmsg ⟨h1, h2, h3, h4⟩
    | data id payload =>
      by_cases hmem : id ∈ m.activeStreams
      · rw [onSocketMessage_data_known m id payload hstate hmem,
          onStreamData_fst]
        exact ⟨h1, h2, h3, h4⟩
      · rcases hstate with hs | hs
        · by_cases hcond : id % 2 = 0 ∧ id > m.serverStreamWatermark
          · rw [onSocketMessage_data_accept m id payload hs hmem hcond.1
              hcond.2]
            refine ⟨?_, fun k _ => hs, ?_, h4⟩
            · intro k hk
              show (streamsLookup ((id, .OPEN) :: m.streams) k).isSome
              rw [streamsLookup_cons]
              by_cases hn : id = k
              · rw [if_pos hn]
                rfl
              · rw [if_neg hn]
                rcases List.mem_append.mp hk with hk' | hk'
                · exact h1 k hk'
                · rw [List.mem_singleton] at hk'
                  exact absurd hk'.symm hn
            · intro k hk
              replace hk : streamsLookup ((id, .OPEN) :: m.streams) k =
                  some .OPEN := hk
              rw [streamsLookup_cons] at hk
              by_cases hn : id = k
              · exact List.mem_append_right _ (by rw [List.mem_singleton, hn])
              · rw [if_neg hn] at hk
                exact List.mem_append_left _ (h3 k hk)
          · rw [onSocketMessage_data_drop m id payload hs hmem hcond]
            exact ⟨h1, h2, h3, h4⟩
        · rw [onSocketMessage_data_drop_closing m id payload hs hmem]
          exact ⟨h1, h2, h3, h4⟩
    | close id =>
      have hbody : (MuxedSocket.onSocketMessage m (.close id)).1 =
          if id ∈ m.activeStreams then
            (if (Stream.onStreamClose m id).2.2 then
              { (Stream.onStreamClose m id).1 with activeStreams :=
                  (Stream.onStreamClose m id).1.activeStreams.erase id }
             else (Stream.onStreamClose m id).1)
          else m := by
        rcases hstate with hs | hs <;>
          (simp only [MuxedSocket.onSocketMessage, hs]
           by_cases hmem : id ∈ m.activeStreams
           · simp only [if_pos hmem]
             try rfl
           · simp only [if_neg hmem]
             try rfl)
      rw [hbody]
      by_cases hmem : id ∈ m.activeStreams
      · rw [if_pos hmem]
        by_cases hb : (Stream.onStreamClose m id).2.2
        · rw [if_pos hb]
          exact muxInv_erase_of _ stepOk_onStreamCloseF m id ⟨h1, h2, h3, h4⟩
        · rw [if_neg hb]
          exact stepOk_preserves_inv _ stepOk_onStreamCloseF m id
            ⟨h1, h2, h3, h4⟩
      · rw [if_neg hmem]
        exact ⟨h1, h2, h3, h4⟩
    | reset id errorCode rmsg =>
      have hbody : (MuxedSocket.onSocketMessage m (.reset id errorCode
          rmsg)).1 =
          if id ∈ m.activeStreams then
            { (Stream.onStreamError m id errorCode rmsg).1 with
              activeStreams := (Stream.onStreamError m id errorCode
                rmsg).1.activeStreams.erase id }
          else { m with activeStreams := m.activeStreams.erase id } := by
        rcases hstate with hs | hs <;>
          (simp only [MuxedSocket.onSocketMessage, hs]
           by_cases hmem : id ∈ m.activeStreams
           · simp only [if_pos hmem]
             try rfl
           · simp only [if_neg hmem]
             try rfl
             try rw [hs])
      rw [hbody]
      by_cases hmem : id ∈ m.activeStreams
      · rw [if_pos hmem]
        exact muxInv_erase_of _ (stepOk_onStreamError errorCode rmsg) m id
          ⟨h1, h2, h3, h4⟩
      · rw [if_neg hmem]
        refine ⟨?_, h2, ?_, h4⟩
        · intro k hk
          exact h1 k (List.mem_of_mem_erase hk)
        · intro k hk
          have hkm := h3 k hk
          have hne : k ≠ id := fun h => hmem (h ▸ hkm)
          exact (List.mem_erase_of_ne hne).mpr hkm

theorem muxInv_step (m : Mux) (e : Event) (hinv : MuxInv m) :
    MuxInv (MuxedSocket.step m e).1 := by
  cases e with
  | sendAuth => exact muxInv_sendAuth m hinv
  | openStream => exact muxInv_openStream m hinv
  | closeStream id => exact stepOk_preserves_inv _ stepOk_close m id hinv
  | errorStream id errorCode msg =>
    exact stepOk_preserves_inv _ (stepOk_error errorCode msg) m id hinv
  | sendStream id data =>
    rw [step_sendStream_fst]
    exact hinv
  | closeSocket => exact muxInv_closeSocket m hinv
  | errorSocket errorCode msg => exact muxInv_errorSocket m errorCode msg hinv
  | message f => exact muxInv_onSocketMessage m f hinv
  | socketClosed => exact muxInv_onSocketClose m hinv
  | socketError errorCode msg =>
    exact muxInv_onSocketError m errorCode msg hinv

theorem muxInv_init : MuxInv Mux.init :=
  ⟨fun id h => absurd h (List.not_mem_nil id),
   fun _ h => Option.noConfusion h,
   fun _ h => Option.noConfusion h, rfl⟩

/-- Every reachable state of the mux machine satisfies `MuxInv`. -/
theorem reachable_inv (m : Mux) (h : Reachable m) : MuxInv m := by
  induction h with
  | init => exact muxInv_init
  | step m e _ ih => exact muxInv_step m e ih

theorem reachable_runEvents (m : Mux) (h : Reachable m) (evs : List Event) :
    Reachable (runEvents m evs) := by
  induction evs generalizing m with
  | nil => exact h
  | cons e rest ih => exact ih _ (Reachable.step m e h)

/-- C3 counterexample: the claimed invariant "the ids in `activeStreams` are
exactly the streams in state OPEN, CLOSING or CLOSEWAIT" fails on a reachable
state: after `sendAuth`, `openStream` (stream 1), `close()` on stream 1
(OPEN → CLOSING, entry kept) and then `error()` on stream 1 (CLOSING → CLOSED
with no table removal in `Stream.error`), stream 1 is CLOSED yet still in
`activeStreams`. -/
theorem c3_activeStreams_invariant_refuted :
    ¬ (∀ m : Mux, Reachable m → ∀ id : Nat,
        id ∈ m.activeStreams ↔
          ∃ st, m.lookupStream id = some st ∧
            (st = .OPEN ∨ st = .CLOSING ∨ st = .CLOSEWAIT)) := by
  intro h
  have hre : Reachable (runEvents Mux.init
      [.sendAuth, .openStream, .closeStream 1, .errorStream 1 7 "x"]) :=
    reachable_runEvents Mux.init Reachable.init _
  have hmem : (1 : Nat) ∈ (runEvents Mux.init
      [.sendAuth, .openStream, .closeStream 1,
        .errorStream 1 7 "x"]).activeStreams := by decide
  obtain ⟨st, hst, hcases⟩ := (h _ hre 1).mp hmem
  have hclosed : (runEvents Mux.init
      [.sendAuth, .openStream, .closeStream 1,
        .errorStream 1 7 "x"]).lookupStream 1 = some .CLOSED := by decide
  rw [hclosed] at hst
  cases Option.some.inj hst
  rcases hcases with h' | h' | h' <;> exact StreamState.noConfusion h'

/-- C3 amended: one inclusion survives: in every reachable state, every
stream in state OPEN has its id in `activeStreams`.  (The claimed equality
fails: a CLOSED stream can stay in the table after `Stream.error` on a
CLOSING stream, and `closeSocket`/`onSocketClose` can leave CLOSING/CLOSEWAIT
streams outside the table.) -/
theorem c3_open_streams_tracked (m : Mux) (h : Reachable m) (id : Nat)
    (hopen : m.lookupStream id = some .OPEN) : id ∈ m.activeStreams :=
  (reachable_inv m h).2.2.1 id hopen

/-- Witness for C3's amended theorem on a concrete reachable state. -/
theorem c3_open_streams_tracked_witness :
    Reachable (runEvents Mux.init [.sendAuth, .openStream]) ∧
    (runEvents Mux.init [.sendAuth, .openStream]).lookupStream 1 =
      some .OPEN ∧
    1 ∈ (runEvents Mux.init [.sendAuth, .openStream]).activeStreams :=
  ⟨reachable_runEvents Mux.init Reachable.init _, by decide,
   c3_open_streams_tracked _ (reachable_runEvents Mux.init Reachable.init _) 1
     (by decide)⟩

/-- C7: `openStream` succeeds only in AUTH_SENT, allocating the next odd
client stream id (ids odd, strictly increasing; `nextStream` advances by 2),
inserting the new OPEN stream into `activeStreams`; in CLOSING/CLOSEWAIT it
fails with "Connection closing", in IDLE/CLOSED with "Connection not
established".  Three consecutive calls after auth return streams 1, 3, 5 and
leave `nextStream = 7`. -/
theorem c7_openStream_contract (m : Mux) (h : Reachable m) :
    (m.state = .AUTH_SENT →
      MuxedSocket.openStream m =
        .ok (m.nextStream,
          { m with nextStream := m.nextStream + 2,
                   streams := (m.nextStream, .OPEN) :: m.streams,
                   activeStreams := m.activeStreams ++ [m.nextStream] }) ∧
      m.nextStream % 2 = 1)
    ∧ ((m.state = .CLOSING ∨ m.state = .CLOSEWAIT) →
        MuxedSocket.openStream m = .error "Connection closing")
    ∧ ((m.state = .IDLE ∨ m.state = .CLOSED) →
        MuxedSocket.openStream m = .error "Connection not established")
    ∧ ((runEvents Mux.init
          [.sendAuth, .openStream, .openStream, .openStream]).activeStreams =
        [1, 3, 5] ∧
       (runEvents Mux.init
          [.sendAuth, .openStream, .openStream, .openStream]).nextStream =
        7) := by
  refine ⟨?_, ?_, ?_, by decide, by decide⟩
  · intro hs
    exact ⟨by simp only [MuxedSocket.openStream, hs],
      (reachable_inv m h).2.2.2⟩
  · rintro (hs | hs) <;> simp only [MuxedSocket.openStream, hs]
  · rintro (hs | hs) <;> simp only [MuxedSocket.openStream, hs]

/-- Witness for C7 at the concrete post-auth state. -/
theorem c7_openStream_contract_witness :
    Reachable (runEvents Mux.init [.sendAuth]) ∧
    (runEvents Mux.init [.sendAuth]).state = .AUTH_SENT ∧
    MuxedSocket.openStream (runEvents Mux.init [.sendAuth]) =
      .ok (1, { state := .AUTH_SENT, streams := [(1, .OPEN)],
                activeStreams := [1], serverStreamWatermark := 0,
                nextStream := 3 }) := by
  have hre : Reachable (runEvents Mux.init [.sendAuth]) :=
    reachable_runEvents Mux.init Reachable.init _
  have h := (c7_openStream_contract _ hre).1 (by decide)
  exact ⟨hre, by decide, h.1.trans rfl⟩

/-- C8: half-close semantics of `Stream.close`.  On an OPEN stream, `close`
moves it to CLOSING, emits a stream-close frame and keeps the table entry; on
a CLOSEWAIT stream — peer already closed, send still succeeding, i.e. the
socket is AUTH_SENT or CLOSEWAIT — `close` moves it to CLOSED, emits a
stream-close frame and deletes the table entry; on a CLOSING or CLOSED
stream, `close` is a no-op. -/
theorem c8_stream_close_halfclose (m : Mux) (h : Reachable m) (id : Nat) :
    (m.lookupStream id = some .OPEN →
      Stream.close m id =
        (m.setStream id .CLOSING, [.sendFrame (.close id)]) ∧
      id ∈ (Stream.close m id).1.activeStreams)
    ∧ (m.lookupStream id = some .CLOSEWAIT →
        (m.state = .AUTH_SENT ∨ m.state = .CLOSEWAIT) →
        Stream.close m id =
          ({ m.setStream id .CLOSED with
             activeStreams := m.activeStreams.erase id },
           [.sendFrame (.close id)]))
    ∧ ((m.lookupStream id = some .CLOSING ∨
        m.lookupStream id = some .CLOSED) →
        Stream.close m id = (m, [])) := by
  refine ⟨?_, ?_, ?_⟩
  · intro hl
    have hs : m.state = .AUTH_SENT := (reachable_inv m h).2.1 id hl
    have heq : Stream.close m id =
        (m.setStream id .CLOSING, [.sendFrame (.close id)]) := by
      simp only [Stream.close, hl, MuxedSocket.streamClose, Mux.setStream, hs]
      rfl
    refine ⟨heq, ?_⟩
    rw [heq]
    show id ∈ m.activeStreams
    exact (reachable_inv m h).2.2.1 id hl
  · intro hl hsock
    rcases hsock with hs | hs <;>
      simp only [Stream.close, hl, MuxedSocket.streamClose, Mux.setStream,
        hs] <;>
      rfl
  · rintro (hl | hl) <;> simp only [Stream.close, hl]

/-- Witness for C8 on a concrete reachable state with stream 1 OPEN. -/
theorem c8_stream_close_halfclose_witness :
    Reachable (runEvents Mux.init [.sendAuth, .openStream]) ∧
    (runEvents Mux.init [.sendAuth, .openStream]).lookupStream 1 =
      some .OPEN ∧
    Stream.close (runEvents Mux.init [.sendAuth, .openStream]) 1 =
      ((runEvents Mux.init [.sendAuth, .openStream]).setStream 1 .CLOSING,
       [.sendFrame (.close 1)]) ∧
    1 ∈ (Stream.close (runEvents Mux.init
      [.sendAuth, .openStream]) 1).1.activeStreams := by
  have hre : Reachable (runEvents Mux.init [.sendAuth, .openStream]) :=
    reachable_runEvents Mux.init Reachable.init _
  have h := (c8_stream_close_halfclose _ hre 1).1 (by decide)
  exact ⟨hre, by decide, h.1, h.2⟩

/-- C4: `errorSocket` in AUTH_SENT or CLOSEWAIT propagates the error to every
active stream (all end CLOSED), clears the table, moves the socket to CLOSED,
and emits a goaway frame with `lastStream = max(nextStream - 2,
serverStreamWatermark)` followed by a transport close with code 1002. -/
theorem c4_errorSocket_goaway (m : Mux) (h : Reachable m)
    (errorCode : Nat) (msg : String)
    (hs : m.state = .AUTH_SENT ∨ m.state = .CLOSEWAIT) :
    (MuxedSocket.errorSocket m errorCode msg).1.state = .CLOSED
    ∧ (MuxedSocket.errorSocket m errorCode msg).1.activeStreams = []
    ∧ (∀ id ∈ m.activeStreams,
        (MuxedSocket.errorSocket m errorCode msg).1.lookupStream id =
          some .CLOSED)
    ∧ ∃ streamEffs,
        (MuxedSocket.errorSocket m errorCode msg).2 =
          streamEffs ++
            [.sendFrame (.goaway
              (max ((m.nextStream : Int) - 2)
                (m.serverStreamWatermark : Int)).toNat errorCode msg),
             .transportClose (some 1002)] := by
  rcases hs with hs | hs <;>
    simp only [MuxedSocket.errorSocket, hs]
  all_goals refine ⟨by first | rfl | trivial, by first | rfl | trivial,
    ?_, ?_⟩
  all_goals
    try
      (intro id hid
       show (foldStreams (fun m id => Stream.error m id errorCode msg) m
         m.activeStreams).1.lookupStream id = some .CLOSED
       exact foldStreams_error_closed errorCode msg m.activeStreams m
         (fun k hk => (reachable_inv m h).1 k hk) id hid)
  all_goals
    refine ⟨(foldStreams (fun m id => Stream.error m id errorCode msg) m
      m.activeStreams).2, ?_⟩
  all_goals
    have hf := foldStreams_fields _ (stepOk_error errorCode msg)
      m.activeStreams m
  all_goals rw [hf.2.1, hf.2.2]

/-- Witness for C4: with `nextStream = 7` and `serverStreamWatermark = 4`,
`errorSocket 42 "bye"` emits a goaway with `lastStream = 5`. -/
theorem c4_errorSocket_goaway_witness :
    Reachable (runEvents Mux.init
      [.sendAuth, .message (.data 2 []), .message (.data 4 []),
       .openStream, .openStream, .openStream]) ∧
    (runEvents Mux.init
      [.sendAuth, .message (.data 2 []), .message (.data 4 []),
       .openStream, .openStream, .openStream]).nextStream = 7 ∧
    (runEvents Mux.init
      [.sendAuth, .message (.data 2 []), .message (.data 4 []),
       .openStream, .openStream, .openStream]).serverStreamWatermark = 4 ∧
    (MuxedSocket.errorSocket (runEvents Mux.init
      [.sendAuth, .message (.data 2 []), .message (.data 4 []),
       .openStream, .openStream, .openStream]) 42 "bye").1.state = .CLOSED ∧
    ∃ streamEffs,
      (MuxedSocket.errorSocket (runEvents Mux.init
        [.sendAuth, .message (.data 2 []), .message (.data 4 []),
         .openStream, .openStream, .openStream]) 42 "bye").2 =
        streamEffs ++
          [.sendFrame (.goaway 5 42 "bye"), .transportClose (some 1002)] := by
  have hre : Reachable (runEvents Mux.init
      [.sendAuth, .message (.data 2 []), .message (.data 4 []),
       .openStream, .openStream, .openStream]) :=
    reachable_runEvents Mux.init Reachable.init _
  have h := c4_errorSocket_goaway _ hre 42 "bye" (.inl (by decide))
  obtain ⟨effs, heffs⟩ := h.2.2.2
  refine ⟨hre, by decide, by decide, h.1, effs, ?_⟩
  rw [heffs]
  rw [show (max (((runEvents Mux.init
      [.sendAuth, .message (.data 2 []), .message (.data 4 []),
       .openStream, .openStream,
       .openStream]).nextStream : Int) - 2)
      ((runEvents Mux.init
      [.sendAuth, .message (.data 2 []), .message (.data 4 []),
       .openStream, .openStream,
       .openStream]).serverStreamWatermark : Int)).toNat = 5 from by decide]

/-- C5: server-stream acceptance rule.  An incoming data frame with an id not
in `activeStreams` is accepted as a new server stream (watermark updated,
stream inserted OPEN, `onStream` fired, payload delivered) exactly when the
socket is AUTH_SENT, the id is even, and the id exceeds the watermark; an
unknown id while CLOSING is dropped, as is an odd or reused (≤ watermark) id
in AUTH_SENT, and every data frame is ignored in IDLE/CLOSEWAIT/CLOSED. -/
theorem c5_server_stream_acceptance (m : Mux) (id : Nat) (payload : List Nat)
    (hmem : ¬ id ∈ m.activeStreams) :
    (m.state = .AUTH_SENT → id % 2 = 0 → id > m.serverStreamWatermark →
      MuxedSocket.onSocketMessage m (.data id payload) =
        ({ m with serverStreamWatermark := id,
                  streams := (id, StreamState.OPEN) :: m.streams,
                  activeStreams := m.activeStreams ++ [id] },
         [.cbOnStream id, .cbStreamData id payload]))
    ∧ (m.state = .CLOSING →
        MuxedSocket.onSocketMessage m (.data id payload) = (m, []))
    ∧ (m.state = .AUTH_SENT →
        (id % 2 = 1 ∨ id ≤ m.serverStreamWatermark) →
        MuxedSocket.onSocketMessage m (.data id payload) = (m, []))
    ∧ ((m.state = .IDLE ∨ m.state = .CLOSEWAIT ∨ m.state = .CLOSED) →
        MuxedSocket.onSocketMessage m (.data id payload) = (m, [])) := by
  refine ⟨?_, ?_, ?_, ?_⟩
  · intro hs he hgt
    exact onSocketMessage_data_accept m id payload hs hmem he hgt
  · intro hs
    exact onSocketMessage_data_drop_closing m id payload hs hmem
  · intro hs hodd
    refine onSocketMessage_data_drop m id payload hs hmem ?_
    rintro ⟨he, hgt⟩
    rcases hodd with h1 | h1 <;> omega
  · exact onSocketMessage_ignore m _

/-- Witness for C5: after auth, a data frame for unknown even id 2 above the
watermark is accepted. -/
theorem c5_server_stream_acceptance_witness :
    ¬ 2 ∈ (runEvents Mux.init [.sendAuth]).activeStreams ∧
    (runEvents Mux.init [.sendAuth]).state = .AUTH_SENT ∧
    MuxedSocket.onSocketMessage (runEvents Mux.init [.sendAuth])
        (.data 2 []) =
      ({ state := .AUTH_SENT, streams := [(2, .OPEN)], activeStreams := [2],
         serverStreamWatermark := 2, nextStream := 1 },
       [.cbOnStream 2, .cbStreamData 2 []]) := by
  have h := (c5_server_stream_acceptance (runEvents Mux.init [.sendAuth]) 2 []
    (by decide)).1 (by decide) (by decide) (by decide)
  exact ⟨by decide, by decide, h.trans rfl⟩

/-- C9 counterexample: `send` on a closed stream does not return an error —
on the reachable state where stream 1 was locally closed and then
acknowledged by the peer (state CLOSED), `Stream.send` returns `.ok` with no
effect instead of a synchronous error. -/
theorem c9_stream_misuse_refuted :
    ¬ (∀ (m : Mux) (id : Nat) (data : List Nat), Reachable m →
        m.lookupStream id = some .CLOSED →
        ∃ e, Stream.send m id data = Except.error e) := by
  intro h
  obtain ⟨e, he⟩ := h (runEvents Mux.init
      [.sendAuth, .openStream, .closeStream 1, .message (.close 1)]) 1 []
    (reachable_runEvents Mux.init Reachable.init _) (by decide)
  rw [show Stream.send (runEvents Mux.init
      [.sendAuth, .openStream, .closeStream 1, .message (.close 1)]) 1 [] =
      .ok (runEvents Mux.init
        [.sendAuth, .openStream, .closeStream 1, .message (.close 1)], [])
    from rfl] at he
  exact Except.noConfusion he

/-- C9 amended: `openStream` on an unconnected (IDLE or CLOSED) socket throws
"Connection not established" synchronously and leaves the socket untouched;
`send` on a CLOSING or CLOSED stream is a synchronous silent no-op (returns
without error, changes nothing, sends nothing) — it also never poisons the
socket. -/
theorem c9_stream_misuse_amended (m : Mux) (id : Nat) (data : List Nat) :
    ((m.state = .IDLE ∨ m.state = .CLOSED) →
      MuxedSocket.openStream m = .error "Connection not established" ∧
      MuxedSocket.step m .openStream = (m, []))
    ∧ ((m.lookupStream id = some .CLOSING ∨
        m.lookupStream id = some .CLOSED) →
        Stream.send m id data = .ok (m, [])) := by
  constructor
  · rintro (hs | hs) <;>
      (constructor
       · simp only [MuxedSocket.openStream, hs]
       · simp only [MuxedSocket.step, MuxedSocket.openStream, hs])
  · rintro (hl | hl) <;> simp only [Stream.send, hl]

/-- Witness for C9's amended theorem: `openStream` on the IDLE constructor
state, and `send` on the concrete closed stream 1. -/
theorem c9_stream_misuse_amended_witness :
    (Mux.init.state = .IDLE ∨ Mux.init.state = .CLOSED) ∧
    (MuxedSocket.openStream Mux.init =
      .error "Connection not established" ∧
     MuxedSocket.step Mux.init .openStream = (Mux.init, [])) ∧
    ((runEvents Mux.init
        [.sendAuth, .openStream, .closeStream 1,
         .message (.close 1)]).lookupStream 1 = some .CLOSED) ∧
    Stream.send (runEvents Mux.init
        [.sendAuth, .openStream, .closeStream 1, .message (.close 1)]) 1 [] =
      .ok (runEvents Mux.init
        [.sendAuth, .openStream, .closeStream 1, .message (.close 1)], []) :=
  ⟨.inl rfl,
   (c9_stream_misuse_amended Mux.init 0 []).1 (.inl rfl),
   by decide,
   (c9_stream_misuse_amended (runEvents Mux.init
      [.sendAuth, .openStream, .closeStream 1, .message (.close 1)]) 1
      []).2 (.inr (by decide))⟩

theorem alookup_aset_self {α : Type} (l : List (String × α)) (key : String)
    (v : α) : alookup (aset l key v) key = some v := by
  induction l with
  | nil => simp [aset, alookup]
  | cons p rest ih =>
    rcases p with ⟨k, w⟩
    by_cases hk : k = key
    · simp [aset, if_pos hk, alookup]
    · simp only [aset, if_neg hk, alookup, if_neg hk]
      exact ih

theorem mirrorTable_ok_elim (m m' : SKDB) (t : String) (sid : Nat)
    (h : SKDBServer.mirrorTable m t sid = .ok m') :
    ∃ n, alookup m'.localToServerSyncConnections t = some ⟨.readTail, n⟩ ∧
      m'.serverToLocalSyncConnections = m.serverToLocalSyncConnections ∧
      alookup m'.mirroredTables t = some sid := by
  simp only [SKDBServer.mirrorTable] at h
  have hbind_ok : ∀ (a : SKDB) (f : SKDB → Except String SKDB),
      (Except.ok a >>= f) = f a := fun _ _ => rfl
  have hbind_err : ∀ (e : String) (f : SKDB → Except String SKDB),
      ((Except.error e : Except String SKDB) >>= f) = .error e :=
    fun _ _ => rfl
  cases hw : (if m.tableExists t = true then m
      else { m with tables := t :: metadataTable t :: m.tables
      }).connectWriteTable t with
  | error e =>
    rw [hw, hbind_err] at h
    exact Except.noConfusion h
  | ok mw =>
    rw [hw, hbind_ok] at h
    cases hr : mw.connectReadTable t with
    | error e =>
      rw [hr, hbind_err] at h
      exact Except.noConfusion h
    | ok mr =>
      rw [hr, hbind_ok] at h
      simp only [Except.ok.injEq] at h
      subst h
      -- unpack connectReadTable
      simp only [SKDB.connectReadTable] at hr
      cases hrl : alookup mw.serverToLocalSyncConnections t with
      | some c =>
        rw [hrl] at hr
        exact Except.noConfusion hr
      | none =>
        rw [hrl] at hr
        simp only [Except.ok.injEq] at hr
        subst hr
        refine ⟨mw.nextConn, ?_, ?_, ?_⟩
        · exact alookup_aset_self _ _ _
        · -- serverToLocal preserved through every step
          show mw.serverToLocalSyncConnections = _
          simp only [SKDB.connectWriteTable] at hw
          cases hwl : alookup (if m.tableExists t = true then m
              else { m with tables := t :: metadataTable t :: m.tables
              }).localToServerSyncConnections t with
          | some c =>
            rw [hwl] at hw
            exact Except.noConfusion hw
          | none =>
            rw [hwl] at hw
            simp only [Except.ok.injEq] at hw
            subst hw
            by_cases hex : m.tableExists t = true <;> simp [hex]
        · exact alookup_aset_self _ _ _

theorem connectReadTable_ok_of_none (m : SKDB) (t : String)
    (h : alookup m.serverToLocalSyncConnections t = none) :
    m.connectReadTable t =
      .ok { m with
            nextConn := m.nextConn + 1,
            localToServerSyncConnections :=
              aset m.localToServerSyncConnections t
                ⟨.readTail, m.nextConn⟩ } := by
  simp only [SKDB.connectReadTable, h]

/-- C1 counterexample: `mirrorTable` is not idempotent.  Starting from a
fresh client, `mirrorTable "t"` succeeds and records `"t"` in
`mirroredTables`, but a second `mirrorTable "t"` throws "Trying to connect an
already connected table" instead of being a no-op. -/
theorem c1_mirrorTable_idempotent_refuted :
    ¬ (∀ (m m' : SKDB) (t : String) (sid : Nat),
        SKDBServer.mirrorTable m t sid = .ok m' →
        ∃ m'', SKDBServer.mirrorTable m' t sid = .ok m'' ∧ m'' = m') := by
  intro h
  obtain ⟨m'', hm'', _⟩ := h SKDB.init
    { tables := ["t", "skdb__t_sync_metadata"],
      mirroredTables := [("t", 0)],
      localToServerSyncConnections := [("t", ⟨.readTail, 1⟩)],
      serverToLocalSyncConnections := [],
      nextConn := 2 } "t" 0 rfl
  rw [show SKDBServer.mirrorTable
      { tables := ["t", "skdb__t_sync_metadata"],
        mirroredTables := [("t", 0)],
        localToServerSyncConnections := [("t", ⟨.readTail, 1⟩)],
        serverToLocalSyncConnections := [],
        nextConn := 2 } "t" 0 =
      Except.error "Trying to connect an already connected table" from rfl]
    at hm''
  exact Except.noConfusion hm''

/-- C1 amended: a second `mirrorTable` call for an already-mirrored table
always throws "Trying to connect an already connected table": the first call
leaves the read-tail connection registered under
`localToServerSyncConnections`, which the second call's `connectWriteTable`
check trips over. -/
theorem c1_mirrorTable_second_call_errors (m m' : SKDB) (t : String)
    (sid sid' : Nat) (h : SKDBServer.mirrorTable m t sid = .ok m') :
    (alookup m'.mirroredTables t).isSome ∧
    SKDBServer.mirrorTable m' t sid' =
      .error "Trying to connect an already connected table" := by
  obtain ⟨n, hl, _, hmt⟩ := mirrorTable_ok_elim m m' t sid h
  refine ⟨by rw [hmt]; rfl, ?_⟩
  simp only [SKDBServer.mirrorTable]
  have hddl : (if m'.tableExists t = true then m'
      else { m' with tables := t :: metadataTable t :: m'.tables
      }).localToServerSyncConnections = m'.localToServerSyncConnections := by
    split <;> rfl
  have hw : (if m'.tableExists t = true then m'
      else { m' with tables := t :: metadataTable t :: m'.tables
      }).connectWriteTable t =
      .error "Trying to connect an already connected table" := by
    simp only [SKDB.connectWriteTable, hddl, hl]
  rw [hw]
  rfl

/-- Witness for C1's amended theorem at a fresh client and table "t". -/
theorem c1_mirrorTable_second_call_errors_witness :
    SKDBServer.mirrorTable SKDB.init "t" 0 =
      .ok { tables := ["t", "skdb__t_sync_metadata"],
            mirroredTables := [("t", 0)],
            localToServerSyncConnections := [("t", ⟨.readTail, 1⟩)],
            serverToLocalSyncConnections := [],
            nextConn := 2 } ∧
    (alookup ({ tables := ["t", "skdb__t_sync_metadata"],
                mirroredTables := [("t", 0)],
                localToServerSyncConnections := [("t", ⟨.readTail, 1⟩)],
                serverToLocalSyncConnections := [],
                nextConn := 2 } : SKDB).mirroredTables "t").isSome ∧
    SKDBServer.mirrorTable
      { tables := ["t", "skdb__t_sync_metadata"],
        mirroredTables := [("t", 0)],
        localToServerSyncConnections := [("t", ⟨.readTail, 1⟩)],
        serverToLocalSyncConnections := [],
        nextConn := 2 } "t" 1 =
      .error "Trying to connect an already connected table" := by
  have h := c1_mirrorTable_second_call_errors SKDB.init
    { tables := ["t", "skdb__t_sync_metadata"],
      mirroredTables := [("t", 0)],
      localToServerSyncConnections := [("t", ⟨.readTail, 1⟩)],
      serverToLocalSyncConnections := [],
      nextConn := 2 } "t" 0 1 rfl
  exact ⟨rfl, h.1, h.2⟩

/-- C10: `connectReadTable` checks `serverToLocalSyncConnections` but
registers its new connection under `localToServerSyncConnections`; after
`mirrorTable` the single `localToServerSyncConnections` entry for the table
is the read-tail connection (the write-tail registration is overwritten);
`serverToLocalSyncConnections` never gains an entry; and a second
`connectReadTable` for the same table does not throw. -/
theorem c10_connectReadTable_registration (m : SKDB) (t : String) :
    ((∃ e, m.connectReadTable t = .error e) ↔
      (alookup m.serverToLocalSyncConnections t).isSome)
    ∧ (∀ m', m.connectReadTable t = .ok m' →
        alookup m'.localToServerSyncConnections t =
          some ⟨.readTail, m.nextConn⟩ ∧
        m'.serverToLocalSyncConnections = m.serverToLocalSyncConnections)
    ∧ (∀ m', m.connectWriteTable t = .ok m' →
        m'.serverToLocalSyncConnections = m.serverToLocalSyncConnections)
    ∧ (∀ m' sid, SKDBServer.mirrorTable m t sid = .ok m' →
        (∃ n, alookup m'.localToServerSyncConnections t =
          some ⟨ConnKind.readTail, n⟩) ∧
        m'.serverToLocalSyncConnections = m.serverToLocalSyncConnections)
    ∧ (∀ m', m.connectReadTable t = .ok m' →
        ∃ m'', m'.connectReadTable t = .ok m'') := by
  refine ⟨?_, ?_, ?_, ?_, ?_⟩
  · cases hl : alookup m.serverToLocalSyncConnections t with
    | some c =>
      constructor
      · intro _
        rfl
      · intro _
        exact ⟨"Trying to connect an already connected table",
          by simp only [SKDB.connectReadTable, hl]⟩
    | none =>
      constructor
      · rintro ⟨e, he⟩
        rw [connectReadTable_ok_of_none m t hl] at he
        exact Except.noConfusion he
      · intro hs
        simp at hs
  · intro m' hok
    cases hl : alookup m.serverToLocalSyncConnections t with
    | some c =>
      simp only [SKDB.connectReadTable, hl] at hok
      exact Except.noConfusion hok
    | none =>
      rw [connectReadTable_ok_of_none m t hl, Except.ok.injEq] at hok
      subst hok
      exact ⟨alookup_aset_self _ _ _, rfl⟩
  · intro m' hok
    cases hl : alookup m.localToServerSyncConnections t with
    | some c =>
      simp only [SKDB.connectWriteTable, hl] at hok
      exact Except.noConfusion hok
    | none =>
      simp only [SKDB.connectWriteTable, hl, Except.ok.injEq] at hok
      subst hok
      rfl
  · intro m' sid h
    obtain ⟨n, hl', hs', _⟩ := mirrorTable_ok_elim m m' t sid h
    exact ⟨⟨n, hl'⟩, hs'⟩
  · intro m' hok
    cases hl : alookup m.serverToLocalSyncConnections t with
    | some c =>
      simp only [SKDB.connectReadTable, hl] at hok
      exact Except.noConfusion hok
    | none =>
      rw [connectReadTable_ok_of_none m t hl, Except.ok.injEq] at hok
      subst hok
      exact ⟨_, connectReadTable_ok_of_none _ t hl⟩

/-- Witness for C10 at a fresh client and table "t". -/
theorem c10_connectReadTable_registration_witness :
    SKDB.init.connectReadTable "t" =
      .ok { tables := [], mirroredTables := [],
            localToServerSyncConnections := [("t", ⟨.readTail, 0⟩)],
            serverToLocalSyncConnections := [], nextConn := 1 } ∧
    alookup ({ tables := [], mirroredTables := [],
               localToServerSyncConnections := [("t", ⟨.readTail, 0⟩)],
               serverToLocalSyncConnections := [],
               nextConn := 1 } : SKDB).localToServerSyncConnections "t" =
      some ⟨.readTail, 0⟩ ∧
    ∃ m'', ({ tables := [], mirroredTables := [],
              localToServerSyncConnections := [("t", ⟨.readTail, 0⟩)],
              serverToLocalSyncConnections := [],
              nextConn := 1 } : SKDB).connectReadTable "t" = .ok m'' := by
  have h := c10_connectReadTable_registration SKDB.init "t"
  have hok : SKDB.init.connectReadTable "t" =
      .ok { tables := [], mirroredTables := [],
            localToServerSyncConnections := [("t", ⟨.readTail, 0⟩)],
            serverToLocalSyncConnections := [], nextConn := 1 } := rfl
  exact ⟨hok, (h.2.1 _ hok).1, h.2.2.2.2 _ hok⟩
